import Mathlib

/-!
Shallow embedding of the ebay-price-simulator repository:
the shipping-rates route (`src/unnamed/part_000`, a Next.js route handler)
and the pricing page (`src/app/page.tsx`).

JavaScript runtime values are modelled by `JsVal`; JavaScript numbers by
`JsNum` (rationals extended with NaN and signed infinities, standing in for
IEEE doubles; none of the verified claims depend on rounding of doubles).
-/

/-- Model of a JavaScript number: NaN, ±Infinity, or a finite value
(modelled as a rational). -/
inductive JsNum where
  | nan : JsNum
  | posInf : JsNum
  | negInf : JsNum
  | fin (q : ℚ) : JsNum
deriving DecidableEq, Repr

/-- Model of a JavaScript runtime value (the shapes JSON parsing and the
route code can produce). -/
inductive JsVal where
  | null : JsVal
  | undefVal : JsVal
  | bool (b : Bool) : JsVal
  | num (n : JsNum) : JsVal
  | str (s : String) : JsVal
  | arr (elems : List JsVal) : JsVal
  | obj (fields : List (String × JsVal)) : JsVal

/-- `v == null || v == undefined` (the values skipped by `??`). -/
def JsVal.nullish : JsVal → Bool
  | .null => true
  | .undefVal => true
  | _ => false

/-- Property access `v?.k`: field lookup on objects, `undefined` otherwise
(optional chaining collapses `null`/`undefined` bases to `undefined`). -/
def jsGet (v : JsVal) (k : String) : JsVal :=
  match v with
  | .obj fields =>
    match fields.find? (fun f => f.1 == k) with
    | some f => f.2
    | none => .undefVal
  | _ => .undefVal

/-- Nullish coalescing `a ?? b`. -/
def jsCoalesce (a b : JsVal) : JsVal :=
  if a.nullish then b else a

/-- ASCII lower/upper case pairs, the table behind the models of
`String.prototype.toLowerCase` / `toUpperCase` (the postal codes and carrier
names in this program are ASCII). -/
def caseTable : List (Char × Char) :=
  [('a', 'A'), ('b', 'B'), ('c', 'C'), ('d', 'D'), ('e', 'E'), ('f', 'F'),
   ('g', 'G'), ('h', 'H'), ('i', 'I'), ('j', 'J'), ('k', 'K'), ('l', 'L'),
   ('m', 'M'), ('n', 'N'), ('o', 'O'), ('p', 'P'), ('q', 'Q'), ('r', 'R'),
   ('s', 'S'), ('t', 'T'), ('u', 'U'), ('v', 'V'), ('w', 'W'), ('x', 'X'),
   ('y', 'Y'), ('z', 'Z')]

/-- Model of per-character `toUpperCase`. -/
def upChar (c : Char) : Char :=
  match caseTable.find? (fun p => p.1 == c) with
  | some p => p.2
  | none => c

/-- Model of per-character `toLowerCase`. -/
def lowChar (c : Char) : Char :=
  match caseTable.find? (fun p => p.2 == c) with
  | some p => p.1
  | none => c

/-- Whitespace as trimmed by `String.prototype.trim` (ASCII subset). -/
def jsWS (c : Char) : Bool :=
  c = ' ' || c = '\t' || c = '\n' || c = '\r'

/-- Drop leading whitespace. -/
def dropWS (cs : List Char) : List Char :=
  cs.dropWhile jsWS

/-- Character-list model of `String.prototype.trim`. -/
def trimChars (cs : List Char) : List Char :=
  (dropWS (dropWS cs).reverse).reverse

/-- Model of `String.prototype.trim`. -/
def jsTrim (s : String) : String :=
  ⟨trimChars s.data⟩

/-- Model of `String.prototype.toUpperCase` (ASCII). -/
def jsUpper (s : String) : String :=
  ⟨s.data.map upChar⟩

/-- Model of `String.prototype.toLowerCase` (ASCII). -/
def jsLower (s : String) : String :=
  ⟨s.data.map lowChar⟩

/-- Model of `String.prototype.includes`: substring containment. -/
def includes (hay needle : String) : Bool :=
  decide (needle.data <:+: hay.data)

/-- Fuelled digit accumulator (structure of the usual decimal rendering
loop; the fuel bounds the digit count so the recursion is structural). -/
def natCharsAux (fuel : Nat) (n : Nat) (acc : List Char) : List Char :=
  match fuel with
  | 0 => acc
  | fuel + 1 =>
    let d := Nat.digitChar (n % 10)
    if n / 10 = 0 then d :: acc else natCharsAux fuel (n / 10) (d :: acc)

/-- Decimal digit list of a natural number, most significant first
(the digits produced when a number is converted to a string). -/
def natChars (n : Nat) : List Char :=
  natCharsAux (n + 1) n []

/-- Decimal rendering of an integer. -/
def intChars (i : ℤ) : List Char :=
  if i < 0 then '-' :: natChars i.natAbs else natChars i.toNat

/-- Rendering of the model rational standing in for a JS number, as produced
by number-to-string coercion. JS renders doubles in decimal; this model
renders the stand-in rational exactly (`num` or `num/den`), keeping the two
properties the code relies on: distinct numbers render distinctly and the
rendering never contains a `:` separator. -/
def ratChars (q : ℚ) : List Char :=
  if q.den = 1 then intChars q.num else intChars q.num ++ '/' :: natChars q.den

/-- String coercion of a JS number. -/
def numStr (n : JsNum) : String :=
  match n with
  | .nan => "NaN"
  | .posInf => "Infinity"
  | .negInf => "-Infinity"
  | .fin q => ⟨ratChars q⟩

mutual

/-- Model of JS string coercion `String(v)` (template-literal coercion). -/
def jsToStr : JsVal → String
  | .null => "null"
  | .undefVal => "undefined"
  | .bool b => if b then "true" else "false"
  | .num n => numStr n
  | .str s => s
  | .arr l => String.intercalate "," (jsArrParts l)
  | .obj _ => "[object Object]"

/-- Element strings of `Array.prototype.toString` (null/undefined render
as the empty string inside an array join). -/
def jsArrParts : List JsVal → List String
  | [] => []
  | .null :: vs => "" :: jsArrParts vs
  | .undefVal :: vs => "" :: jsArrParts vs
  | v :: vs => jsToStr v :: jsArrParts vs

end

/-- JSON string escaping (the characters relevant here). -/
def jsonEscapeChar (c : Char) : List Char :=
  if c = '"' then ['\\', '"']
  else if c = '\\' then ['\\', '\\']
  else if c = '\n' then ['\\', 'n']
  else if c = '\r' then ['\\', 'r']
  else if c = '\t' then ['\\', 't']
  else [c]

/-- JSON quoting of a string. -/
def jsonQuote (s : String) : String :=
  ⟨'"' :: (s.data.map jsonEscapeChar).flatten ++ ['"']⟩

mutual

/-- Model of `JSON.stringify` on JSON-representable values. (`undefined`
is rendered as "null", its in-array convention; values reaching the
stringify call in this program are parsed JSON and never `undefined`.) -/
def jsStringify : JsVal → String
  | .null => "null"
  | .undefVal => "null"
  | .bool b => if b then "true" else "false"
  | .num (.fin q) => ⟨ratChars q⟩
  | .num _ => "null"
  | .str s => jsonQuote s
  | .arr l => "[" ++ String.intercalate "," (jsStringifyList l) ++ "]"
  | .obj fs => "\x7b" ++ String.intercalate "," (jsStringifyFields fs) ++ "\x7d"

/-- Array elements under `JSON.stringify`. -/
def jsStringifyList : List JsVal → List String
  | [] => []
  | v :: vs => jsStringify v :: jsStringifyList vs

/-- Object fields under `JSON.stringify` (fields holding `undefined` are
omitted). -/
def jsStringifyFields : List (String × JsVal) → List String
  | [] => []
  | (_, .undefVal) :: fs => jsStringifyFields fs
  | (k, v) :: fs => (jsonQuote k ++ ":" ++ jsStringify v) :: jsStringifyFields fs

end

/-- Digit value of a character, hex digits included (`none` for
non-digits). -/
def hexVal? (c : Char) : Option Nat :=
  if '0' ≤ c ∧ c ≤ '9' then some (c.toNat - 48)
  else if 'a' ≤ c ∧ c ≤ 'f' then some (c.toNat - 87)
  else if 'A' ≤ c ∧ c ≤ 'F' then some (c.toNat - 55)
  else none

/-- Parse a nonempty digit string in the given base. -/
def parseBaseDigits? (base : Nat) (cs : List Char) : Option Nat :=
  if cs = [] then none
  else
    cs.foldl
      (fun acc c =>
        match acc, hexVal? c with
        | some a, some v => if v < base then some (base * a + v) else none
        | _, _ => none)
      (some 0)

/-- Value of a (possibly empty) decimal digit string. -/
def decDigitsVal (cs : List Char) : Nat :=
  cs.foldl (fun a c => 10 * a + (c.toNat - 48)) 0

/-- Parse the mantissa of a decimal literal: `digits`, `digits.digits?`,
or `.digits`. -/
def parseMantissa? (cs : List Char) : Option ℚ :=
  match cs.splitOn '.' with
  | [ip] => (parseBaseDigits? 10 ip).map (fun n => (n : ℚ))
  | [ip, fp] =>
    if ip = [] && fp = [] then none
    else if ip.all (fun c => (hexVal? c).elim false (· < 10)) &&
            fp.all (fun c => (hexVal? c).elim false (· < 10)) then
      some ((decDigitsVal ip : ℚ) + (decDigitsVal fp : ℚ) / 10 ^ fp.length)
    else none
  | _ => none

/-- Parse a decimal literal with optional exponent, or `Infinity`. -/
def parseDecOrInf? (cs : List Char) : Option JsNum :=
  if cs = "Infinity".data then some .posInf
  else
    match (cs.map (fun c => if c = 'E' then 'e' else c)).splitOn 'e' with
    | [m] => (parseMantissa? m).map (fun q => .fin q)
    | [m, e] =>
      match parseMantissa? m, e with
      | some q, '+' :: ds => (parseBaseDigits? 10 ds).map (fun n => .fin (q * 10 ^ n))
      | some q, '-' :: ds => (parseBaseDigits? 10 ds).map (fun n => .fin (q / 10 ^ n))
      | some q, ds => (parseBaseDigits? 10 ds).map (fun n => .fin (q * 10 ^ n))
      | none, _ => none
    | _ => none

/-- Negate a JS number. -/
def jsNeg : JsNum → JsNum
  | .nan => .nan
  | .posInf => .negInf
  | .negInf => .posInf
  | .fin q => .fin (-q)

/-- Parse a trimmed nonempty numeric string: optional sign with a decimal
literal or `Infinity`, or an unsigned radix literal (`0x`/`0o`/`0b`). -/
def parseSignedNum? (cs : List Char) : Option JsNum :=
  match cs with
  | '+' :: rest => parseDecOrInf? rest
  | '-' :: rest => (parseDecOrInf? rest).map jsNeg
  | '0' :: 'x' :: rest => (parseBaseDigits? 16 rest).map (fun n => .fin (n : ℚ))
  | '0' :: 'X' :: rest => (parseBaseDigits? 16 rest).map (fun n => .fin (n : ℚ))
  | '0' :: 'o' :: rest => (parseBaseDigits? 8 rest).map (fun n => .fin (n : ℚ))
  | '0' :: 'O' :: rest => (parseBaseDigits? 8 rest).map (fun n => .fin (n : ℚ))
  | '0' :: 'b' :: rest => (parseBaseDigits? 2 rest).map (fun n => .fin (n : ℚ))
  | '0' :: 'B' :: rest => (parseBaseDigits? 2 rest).map (fun n => .fin (n : ℚ))
  | rest => parseDecOrInf? rest

/-- Model of JS string-to-number coercion: trim; empty is 0; otherwise a
numeric literal or NaN. -/
def strToNum (s : String) : JsNum :=
  let t := trimChars s.data
  if t = [] then .fin 0
  else
    match parseSignedNum? t with
    | some n => n
    | none => .nan

/-- Model of `Number(v)` (ToNumber coercion). -/
def jsToNumber : JsVal → JsNum
  | .null => .fin 0
  | .undefVal => .nan
  | .bool b => .fin (if b then 1 else 0)
  | .num n => n
  | .str s => strToNum s
  | .arr l => strToNum (jsToStr (.arr l))
  | .obj _ => .nan

/-- Truthiness of a JS value. -/
def jsTruthy : JsVal → Bool
  | .null => false
  | .undefVal => false
  | .bool b => b
  | .num .nan => false
  | .num (.fin q) => decide (q ≠ 0)
  | .num _ => true
  | .str s => decide (s ≠ "")
  | .arr _ => true
  | .obj _ => true

/-- `Number.isFinite` on a model JS number. -/
def jsIsFinite : JsNum → Bool
  | .fin _ => true
  | _ => false

/-- The rational carried by a finite model JS number (`0` otherwise; only
used behind a `jsIsFinite` guard). -/
def finQ : JsNum → ℚ
  | .fin q => q
  | _ => 0


/-!
Model of the rates route handler (`src/unnamed/part_000`).
-/

/-- The `RateSummary` shape built by the route. The two optional fields are
stored as the runtime values the code assigns (`rate?.x ?? null`). -/
structure RateSummary where
  carrier : String
  service : String
  price : JsNum
  currency : String
  estimated_delivery_dates : JsVal
  carrier_id : JsVal

/-- The `RatesResult` shape: normalized quotes plus error strings. -/
structure RatesResult where
  rates : List RateSummary
  errors : List String

/-- A cache entry: absolute expiry (ms clock) and the cached result. -/
structure CacheEntry where
  expiresAt : ℤ
  value : RatesResult

/-- The in-process `Map`-backed cache, as an insertion-ordered association
list. -/
abbrev Cache := List (String × CacheEntry)

/-- `CACHE_TTL_MS = 60_000`. -/
def CACHE_TTL_MS : ℤ := 60000

/-- The Japan Post service allow-list. -/
def JAPAN_POST_SERVICES : List String :=
  ["japanpost_ems", "japanpost_epacket_light", "japanpost_smallpacket_air"]

/-- The destination country union type `"US" | "GB"`. -/
inductive Country where
  | US : Country
  | GB : Country
deriving DecidableEq, Repr

/-- The country code string. -/
def countryStr : Country → String
  | .US => "US"
  | .GB => "GB"

/-- `buildCacheKey`: `[destination, weight, width, height, depth,
postal.trim().toUpperCase()].join(":")`. -/
def buildCacheKey (destination : Country) (weight width height depth : ℚ)
    (postal : String) : String :=
  countryStr destination ++ ":" ++ ⟨ratChars weight⟩ ++ ":" ++ ⟨ratChars width⟩
    ++ ":" ++ ⟨ratChars height⟩ ++ ":" ++ ⟨ratChars depth⟩ ++ ":"
    ++ jsUpper (jsTrim postal)

/-- `pruneCache`: delete every entry with `expiresAt <= now`. -/
def pruneCache (now : ℤ) (cache : Cache) : Cache :=
  cache.filter (fun e => !(e.2.expiresAt ≤ now))

/-- `Map.prototype.get`. -/
def cacheGet (cache : Cache) (key : String) : Option CacheEntry :=
  (cache.find? (fun e => e.1 == key)).map (fun e => e.2)

/-- `Map.prototype.set`: replace in place or append. -/
def cacheSet (cache : Cache) (key : String) (entry : CacheEntry) : Cache :=
  if cache.any (fun e => e.1 == key) then
    cache.map (fun e => if e.1 == key then (key, entry) else e)
  else
    cache ++ [(key, entry)]

/-- Behaviour of the outbound `fetch` call to the rates API: the promise
either rejects (network failure) or resolves with an HTTP status and a
parsed JSON body (`response.json().catch(() => null)` turns an unparseable
body into `null`, so the body is a `JsVal`). -/
inductive FetchOutcome where
  | reject : FetchOutcome
  | resolve (status : Nat) (body : JsVal) : FetchOutcome

/-- The uniform result shape of `fetchRates`: `{ok: false, status, message}`
or `{ok: true, data}`. -/
inductive FetchRes where
  | failure (status : Nat) (message : JsVal) : FetchRes
  | success (data : JsVal) : FetchRes

/-- `Response.ok`: status in the 2xx range. -/
def jsOkStatus (status : Nat) : Bool :=
  200 ≤ status && status < 300

/-- The failure message of a non-2xx response:
`data?.message ?? data?.error ?? generic`. -/
def failureMessage (body : JsVal) : JsVal :=
  jsCoalesce (jsGet body "message")
    (jsCoalesce (jsGet body "error")
      (.str "Ship&Co API の呼び出しに失敗しました。"))

/-- `fetchRates`: missing access token short-circuits with a configuration
failure; a rejected outbound call is an uncaught exception (`Except.error`);
otherwise non-2xx responses map to a failure carrying the API-reported
message, and 2xx responses to a success carrying the parsed body. -/
def fetchRates (apiKey : Option String) (outcome : FetchOutcome) :
    Except Unit FetchRes :=
  match apiKey with
  | none => .ok (.failure 500 (.str "SHIPANDCO_API_KEY が設定されていません。"))
  | some _ =>
    match outcome with
    | .reject => .error ()
    | .resolve status body =>
      if jsOkStatus status then .ok (.success body)
      else .ok (.failure status (failureMessage body))

/-- The error string synthesized for an upstream failure:
``Ship&Co API 失敗 (${country}): ${status} ${message}``. -/
def failString (country : Country) (status : Nat) (message : JsVal) : String :=
  "Ship&Co API 失敗 (" ++ countryStr country ++ "): " ++ Nat.repr status
    ++ " " ++ jsToStr message

/-- Raw rate extraction: a bare array, else `data?.rates` when that is an
array, else empty. -/
def extractRaw (data : JsVal) : List JsVal :=
  match data with
  | .arr l => l
  | _ =>
    match jsGet data "rates" with
    | .arr l => l
    | _ => []

/-- The allow-list filter predicate on a raw quote. -/
def allowQuote (rate : JsVal) : Bool :=
  let carrier := jsLower (jsToStr (jsCoalesce (jsGet rate "carrier") (.str "")))
  if includes carrier "dhl" then true
  else if includes carrier "fedex" then true
  else if includes carrier "japan post" || includes carrier "japanpost" then
    JAPAN_POST_SERVICES.contains (jsToStr (jsGet rate "service"))
  else false

/-- Normalization of an accepted raw quote into a `RateSummary`. -/
def normalizeRate (rate : JsVal) : RateSummary :=
  { carrier := jsToStr (jsCoalesce (jsGet rate "carrier") (.str ""))
    service := jsToStr (jsCoalesce (jsGet rate "service") (.str ""))
    price := jsToNumber (jsCoalesce (jsGet rate "price") (.num (.fin 0)))
    currency := jsToStr (jsCoalesce (jsGet rate "currency") (.str ""))
    estimated_delivery_dates := jsCoalesce (jsGet rate "estimated_delivery_dates") .null
    carrier_id := jsCoalesce (jsGet rate "carrier_id") .null }

/-- One API-reported error entry: `entry?.message` when truthy (string
coerced), else `JSON.stringify(entry)`. -/
def apiErrorEntry (entry : JsVal) : String :=
  if jsTruthy (jsGet entry "message") then jsToStr (jsGet entry "message")
  else jsStringify entry

/-- API-reported errors: quotes whose `errors` field is an array contribute
each entry, in encounter order. -/
def apiErrors (rawRates : List JsVal) : List String :=
  (rawRates.filter (fun rate =>
      match jsGet rate "errors" with
      | .arr _ => true
      | _ => false)).flatMap
    (fun rate =>
      match jsGet rate "errors" with
      | .arr entries => entries.map apiErrorEntry
      | _ => [])

/-- The localized label for each required Japan Post service code. -/
def jpLabel (service : String) : String :=
  if service = "japanpost_ems" then "EMS"
  else if service = "japanpost_epacket_light" then "eパケットライト"
  else "小型包装物（航空）"

/-- The gap-fill error message for a missing Japan Post service. -/
def gapFillMsg (service : String) : String :=
  jpLabel service ++ "：非対応/取得失敗"

/-- Services carried by the accepted quotes whose carrier (lowercased)
contains `"japan"`. -/
def japanPostServicesOf (rates : List RateSummary) : List String :=
  (rates.filter (fun r => includes (jsLower r.carrier) "japan")).map
    (fun r => r.service)

/-- Gap-fill: one synthesized message per required Japan Post service code
not carried by an accepted japan-carrier quote, in allow-list order. -/
def gapFill (rates : List RateSummary) : List String :=
  (JAPAN_POST_SERVICES.filter
      (fun s => !(japanPostServicesOf rates).contains s)).map gapFillMsg

/-- The success path of `getRatesForDestination` after `fetchRates`
succeeds: extract, filter, normalize, aggregate errors, gap-fill. -/
def processSuccess (data : JsVal) : RatesResult :=
  let rawRates := extractRaw data
  let rates := (rawRates.filter allowQuote).map normalizeRate
  { rates := rates
    errors := apiErrors rawRates ++ gapFill rates }

/-- `getRatesForDestination`. Returns the result, the cache after the call,
and whether the fetch path ran (`false` on a cache hit); `Except.error`
models an uncaught exception from a rejected outbound call. Note the
upstream-failure result is returned without being stored in the cache. -/
def getRatesForDestination (apiKey : Option String) (outcome : FetchOutcome)
    (country : Country) (postal : String) (weight width height depth : ℚ)
    (now : ℤ) (cache : Cache) :
    Except Unit (RatesResult × Cache × Bool) :=
  let key := buildCacheKey country weight width height depth postal
  let pruned := pruneCache now cache
  match cacheGet pruned key with
  | some cached =>
    if now < cached.expiresAt then .ok (cached.value, pruned, false)
    else
      match fetchRates apiKey outcome with
      | .error e => .error e
      | .ok (.failure status message) =>
        .ok ({ rates := [], errors := [failString country status message] },
          pruned, true)
      | .ok (.success data) =>
        let result := processSuccess data
        .ok (result,
          cacheSet pruned key { expiresAt := now + CACHE_TTL_MS, value := result },
          true)
  | none =>
    match fetchRates apiKey outcome with
    | .error e => .error e
    | .ok (.failure status message) =>
      .ok ({ rates := [], errors := [failString country status message] },
        pruned, true)
    | .ok (.success data) =>
      let result := processSuccess data
      .ok (result,
        cacheSet pruned key { expiresAt := now + CACHE_TTL_MS, value := result },
        true)

/-- The response of the `POST` handler: a 400 with an error message, or a
200 carrying the two destination results. -/
inductive PostResponse where
  | badRequest (msg : String) : PostResponse
  | okResp (us uk : RatesResult) : PostResponse

/-- HTTP status of a handler response. -/
def statusOf : PostResponse → Nat
  | .badRequest _ => 400
  | .okResp _ _ => 200

/-- Postal-code defaulting: `String(v ?? default).trim() || default`. -/
def postalOrDefault (v : JsVal) (dflt : String) : String :=
  let s := jsTrim (jsToStr (jsCoalesce v (.str dflt)))
  if s = "" then dflt else s

/-- The `POST` handler. `body` is the parsed request body (`none` when
parsing rejected). The two destination lookups run concurrently on disjoint
cache keys; they are modelled sequentially (US then UK), each with its own
clock reading. `Except.error` models an uncaught exception escaping the
handler (a non-200 framework error response). -/
def POST (apiKey : Option String) (usOutcome ukOutcome : FetchOutcome)
    (body : Option JsVal) (nowUS nowUK : ℤ) (cache : Cache) :
    Except Unit (PostResponse × Cache) :=
  match body with
  | none => .ok (.badRequest "リクエストが不正です。", cache)
  | some b =>
    if !jsTruthy b then .ok (.badRequest "リクエストが不正です。", cache)
    else
      let weight := jsToNumber (jsGet b "weight")
      let width := jsToNumber (jsGet b "width")
      let height := jsToNumber (jsGet b "height")
      let depth := jsToNumber (jsGet b "depth")
      if !(jsIsFinite weight && jsIsFinite width && jsIsFinite height &&
          jsIsFinite depth) then
        .ok (.badRequest "重量・サイズの入力が不正です。", cache)
      else
        let usZip := postalOrDefault (jsGet b "usZip") "10001"
        let ukPostcode := postalOrDefault (jsGet b "ukPostcode") "SW1A 1AA"
        match getRatesForDestination apiKey usOutcome .US usZip
            (finQ weight) (finQ width) (finQ height) (finQ depth) nowUS cache with
        | .error e => .error e
        | .ok (usResult, cache₁, _) =>
          match getRatesForDestination apiKey ukOutcome .GB ukPostcode
              (finQ weight) (finQ width) (finQ height) (finQ depth) nowUK cache₁ with
          | .error e => .error e
          | .ok (ukResult, cache₂, _) =>
            .ok (.okResp usResult ukResult, cache₂)

/-!
Model of the pricing page (`src/app/page.tsx`).
-/

/-- The outputs of the price computation in `Home` (the `useMemo` block):
derived prices, or `none` for every price with an error message when the
divisor is non-positive. -/
structure PriceOutcome where
  profit : Option ℚ
  sellPriceJPY : Option ℚ
  discountedPriceUSD : Option ℚ
  originalPriceUSD : Option ℚ
  error : Option String
deriving DecidableEq, Repr

/-- The price computation of `Home` (finite inputs; the form handlers keep
every field a finite number). -/
def computePrice (costPrice shippingFee feePercent targetProfitRate
    exchangeRate discountRate : ℚ) : PriceOutcome :=
  let feeRate := feePercent / 100
  let profitRate := targetProfitRate / 100
  let discount := discountRate / 100
  let totalCost := costPrice + shippingFee
  let divisor := 1 - feeRate - profitRate
  if divisor ≤ 0 then
    { profit := none, sellPriceJPY := none, discountedPriceUSD := none,
      originalPriceUSD := none,
      error := some "利益率と手数料率の合計が100%を超えています。" }
  else
    let sellPriceJPY := totalCost / divisor
    let profit := sellPriceJPY * profitRate
    let sellPriceUSD := if exchangeRate ≠ 0 then sellPriceJPY / exchangeRate else 0
    let originalPriceUSD := if discount < 1 then sellPriceUSD / (1 - discount) else 0
    { profit := some profit, sellPriceJPY := some sellPriceJPY,
      discountedPriceUSD := some sellPriceUSD,
      originalPriceUSD := some originalPriceUSD, error := none }

/-- Behaviour of the exchange-rate fetch: the network call or JSON parsing
throws, or a parsed body is produced. -/
inductive XhrOutcome where
  | throwing : XhrOutcome
  | resolve (data : JsVal) : XhrOutcome

/-- `fetchExchangeRate`: `Number(data?.rates?.JPY ?? 145)`, with 145 on any
thrown failure. -/
def fetchExchangeRate : XhrOutcome → JsNum
  | .throwing => .fin 145
  | .resolve data =>
    jsToNumber (jsCoalesce (jsGet (jsGet data "rates") "JPY") (.num (.fin 145)))

/-!
Helper lemmas: decimal rendering is injective and uses only digit
characters (plus a leading minus and an internal slash), so the `:`-joined
cache key determines its components.
-/

/-- ASCII decimal digit test. -/
def isDig (c : Char) : Bool :=
  '0' ≤ c && c ≤ '9'

theorem isDig_digitChar (m : Nat) (h : m < 10) : isDig (Nat.digitChar m) := by
  interval_cases m <;> decide

theorem digitVal_digitChar (m : Nat) (h : m < 10) :
    (Nat.digitChar m).toNat - 48 = m := by
  interval_cases m <;> decide

theorem natCharsAux_append (fuel : Nat) :
    ∀ n acc, natCharsAux fuel n acc = natCharsAux fuel n [] ++ acc := by
  induction fuel with
  | zero => intro n acc; simp [natCharsAux]
  | succ fuel ih =>
    intro n acc
    by_cases h : n / 10 = 0
    · simp [natCharsAux, h]
    · simp only [natCharsAux, h, if_neg, ite_false]
      rw [ih (n / 10) (Nat.digitChar (n % 10) :: acc),
        ih (n / 10) [Nat.digitChar (n % 10)]]
      simp

theorem mem_natCharsAux (fuel : Nat) :
    ∀ n acc c, c ∈ natCharsAux fuel n acc → isDig c ∨ c ∈ acc := by
  induction fuel with
  | zero => intro n acc c h; exact Or.inr h
  | succ fuel ih =>
    intro n acc c h
    by_cases h0 : n / 10 = 0
    · simp only [natCharsAux, h0, ite_true] at h
      rcases List.mem_cons.mp h with h | h
      · exact Or.inl (h ▸ isDig_digitChar _ (Nat.mod_lt _ (by omega)))
      · exact Or.inr h
    · simp only [natCharsAux, h0, ite_false] at h
      rcases ih (n / 10) _ c h with h | h
      · exact Or.inl h
      · rcases List.mem_cons.mp h with h | h
        · exact Or.inl (h ▸ isDig_digitChar _ (Nat.mod_lt _ (by omega)))
        · exact Or.inr h

theorem mem_natChars (n : Nat) (c : Char) (h : c ∈ natChars n) : isDig c := by
  rcases mem_natCharsAux (n + 1) n [] c h with h | h
  · exact h
  · simp at h

theorem natChars_ne_nil (n : Nat) : natChars n ≠ [] := by
  rw [natChars]
  by_cases h : n / 10 = 0
  · simp [natCharsAux, h]
  · simp only [natCharsAux, h, ite_false]
    rw [natCharsAux_append]
    simp

theorem decDigitsVal_append (xs : List Char) (c : Char) :
    decDigitsVal (xs ++ [c]) = 10 * decDigitsVal xs + (c.toNat - 48) := by
  simp [decDigitsVal, List.foldl_append]

theorem decDigitsVal_natCharsAux (fuel : Nat) :
    ∀ n, n < fuel → decDigitsVal (natCharsAux fuel n []) = n := by
  induction fuel with
  | zero => intro n h; omega
  | succ fuel ih =>
    intro n h
    by_cases h0 : n / 10 = 0
    · have hn : n < 10 := by omega
      simp only [natCharsAux, h0, ite_true]
      have : decDigitsVal [Nat.digitChar (n % 10)] = (Nat.digitChar (n % 10)).toNat - 48 := by
        simp [decDigitsVal]
      rw [this, digitVal_digitChar _ (Nat.mod_lt _ (by omega))]
      omega
    · have hdiv : n / 10 < n := Nat.div_lt_self (by omega) (by decide)
      simp only [natCharsAux, h0, ite_false]
      rw [natCharsAux_append, decDigitsVal_append,
        ih (n / 10) (by omega), digitVal_digitChar _ (Nat.mod_lt _ (by omega))]
      omega

theorem natChars_inj {a b : Nat} (h : natChars a = natChars b) : a = b := by
  have ha := decDigitsVal_natCharsAux (a + 1) a (by omega)
  have hb := decDigitsVal_natCharsAux (b + 1) b (by omega)
  rw [natChars, natChars] at h
  rw [← ha, ← hb, h]

theorem colon_not_mem_natChars (n : Nat) : ':' ∉ natChars n := by
  intro h
  exact absurd (mem_natChars n ':' h) (by decide)

theorem minus_not_mem_natChars (n : Nat) : '-' ∉ natChars n := by
  intro h
  exact absurd (mem_natChars n '-' h) (by decide)

theorem slash_not_mem_natChars (n : Nat) : '/' ∉ natChars n := by
  intro h
  exact absurd (mem_natChars n '/' h) (by decide)

theorem mem_intChars (i : ℤ) (c : Char) (h : c ∈ intChars i) :
    isDig c ∨ c = '-' := by
  rw [intChars] at h
  by_cases hi : i < 0
  · simp only [hi, ite_true] at h
    rcases List.mem_cons.mp h with h | h
    · exact Or.inr h
    · exact Or.inl (mem_natChars _ _ h)
  · simp only [hi, ite_false] at h
    exact Or.inl (mem_natChars _ _ h)

theorem colon_not_mem_intChars (i : ℤ) : ':' ∉ intChars i := by
  intro h
  rcases mem_intChars i ':' h with h | h
  · exact absurd h (by decide)
  · exact absurd h (by decide)

theorem slash_not_mem_intChars (i : ℤ) : '/' ∉ intChars i := by
  intro h
  rcases mem_intChars i '/' h with h | h
  · exact absurd h (by decide)
  · exact absurd h (by decide)

theorem intChars_inj {i j : ℤ} (h : intChars i = intChars j) : i = j := by
  rw [intChars, intChars] at h
  by_cases hi : i < 0 <;> by_cases hj : j < 0
  · simp only [hi, hj, ite_true, List.cons.injEq] at h
    have := natChars_inj h.2
    omega
  · simp only [hi, hj, ite_true, ite_false] at h
    exact absurd (h ▸ List.mem_cons_self '-' (natChars i.natAbs))
      (minus_not_mem_natChars j.toNat)
  · simp only [hi, hj, ite_true, ite_false] at h
    exact absurd (h.symm ▸ List.mem_cons_self '-' (natChars j.natAbs))
      (minus_not_mem_natChars i.toNat)
  · simp only [hi, hj, ite_false] at h
    have := natChars_inj h
    omega

/-- Splitting an append at a separator character that occurs in neither
left part recovers the parts. -/
theorem sep_split (c : Char) :
    ∀ (l₁ l₂ r₁ r₂ : List Char), c ∉ l₁ → c ∉ l₂ →
      l₁ ++ c :: r₁ = l₂ ++ c :: r₂ → l₁ = l₂ ∧ r₁ = r₂ := by
  intro l₁
  induction l₁ with
  | nil =>
    intro l₂ r₁ r₂ _ h₂ h
    cases l₂ with
    | nil => simpa using h
    | cons b bs =>
      simp only [List.nil_append, List.cons_append, List.cons.injEq] at h
      exact absurd (h.1 ▸ List.mem_cons_self b bs) h₂
  | cons a as ih =>
    intro l₂ r₁ r₂ h₁ h₂ h
    cases l₂ with
    | nil =>
      simp only [List.nil_append, List.cons_append, List.cons.injEq] at h
      exact absurd (h.1.symm ▸ List.mem_cons_self a as) h₁
    | cons b bs =>
      simp only [List.cons_append, List.cons.injEq] at h
      have hab := h.1
      have htl := ih bs r₁ r₂ (fun hc => h₁ (List.mem_cons_of_mem a hc))
        (fun hc => h₂ (List.mem_cons_of_mem b hc)) h.2
      exact ⟨by rw [hab, htl.1], htl.2⟩

theorem colon_not_mem_ratChars (q : ℚ) : ':' ∉ ratChars q := by
  rw [ratChars]
  by_cases h : q.den = 1
  · simp only [h, ite_true]
    exact colon_not_mem_intChars q.num
  · simp only [h, ite_false]
    intro hm
    rcases List.mem_append.mp hm with hm | hm
    · exact colon_not_mem_intChars q.num hm
    · rcases List.mem_cons.mp hm with hm | hm
      · exact absurd hm (by decide)
      · exact colon_not_mem_natChars q.den hm

theorem ratChars_inj {p q : ℚ} (h : ratChars p = ratChars q) : p = q := by
  rw [ratChars, ratChars] at h
  by_cases hp : p.den = 1 <;> by_cases hq : q.den = 1
  · simp only [hp, hq, ite_true] at h
    exact Rat.ext (intChars_inj h) (hp.trans hq.symm)
  · simp only [hp, hq, ite_true, ite_false] at h
    have : '/' ∈ intChars p.num := by
      rw [h]
      exact List.mem_append_right _ (List.mem_cons_self _ _)
    exact absurd this (slash_not_mem_intChars p.num)
  · simp only [hp, hq, ite_true, ite_false] at h
    have : '/' ∈ intChars q.num := by
      rw [← h]
      exact List.mem_append_right _ (List.mem_cons_self _ _)
    exact absurd this (slash_not_mem_intChars q.num)
  · simp only [hp, hq, ite_false] at h
    have := sep_split '/' _ _ _ _ (slash_not_mem_intChars p.num)
      (slash_not_mem_intChars q.num) h
    exact Rat.ext (intChars_inj this.1) (natChars_inj this.2)

/-!
Helper lemmas: trimming and upper-casing of postal codes.
-/

theorem jsWS_upChar (c : Char) : jsWS (upChar c) = jsWS c := by
  rw [upChar]
  cases h : caseTable.find? (fun p => p.1 == c) with
  | none => rfl
  | some p =>
    have hp : p ∈ caseTable := List.mem_of_find?_eq_some h
    have hc : p.1 = c := by simpa using List.find?_some h
    subst hc
    fin_cases hp <;> decide

theorem dropWS_append_of_ws (l m : List Char) (hl : ∀ c ∈ l, jsWS c) :
    dropWS (l ++ m) = dropWS m := by
  induction l with
  | nil => simp
  | cons a l ih =>
    have ha : jsWS a := hl a (List.mem_cons_self a l)
    simp only [List.cons_append, dropWS, List.dropWhile_cons, ha, ite_true]
    exact ih (fun c hc => hl c (List.mem_cons_of_mem a hc))

theorem dropWS_append_of_ne_nil (l m : List Char) (h : dropWS l ≠ []) :
    dropWS (l ++ m) = dropWS l ++ m := by
  induction l with
  | nil => simp [dropWS] at h
  | cons a l ih =>
    by_cases ha : jsWS a
    · simp only [List.cons_append, dropWS, List.dropWhile_cons, ha, ite_true]
      simp only [dropWS, List.dropWhile_cons, ha, ite_true] at h
      exact ih h
    · simp only [List.cons_append, dropWS, List.dropWhile_cons, ha, ite_false,
        Bool.false_eq_true]

theorem dropWS_eq_nil_of_ws (l : List Char) (hl : ∀ c ∈ l, jsWS c) :
    dropWS l = [] :=
  List.dropWhile_eq_nil_iff.mpr (fun c hc => hl c hc)


theorem trimChars_sandwich (l m r : List Char) (hl : ∀ c ∈ l, jsWS c)
    (hr : ∀ c ∈ r, jsWS c) : trimChars (l ++ m ++ r) = trimChars m := by
  rw [trimChars, trimChars, List.append_assoc, dropWS_append_of_ws l (m ++ r) hl]
  by_cases hm : dropWS m = []
  · have hmws : ∀ c ∈ m, jsWS c := List.dropWhile_eq_nil_iff.mp hm
    have hmr : dropWS (m ++ r) = [] :=
      dropWS_eq_nil_of_ws (m ++ r)
        (fun c hc => (List.mem_append.mp hc).elim (hmws c) (hr c))
    rw [hmr, hm]
  · rw [dropWS_append_of_ne_nil m r hm, List.reverse_append,
      dropWS_append_of_ws r.reverse (dropWS m).reverse
        (fun c hc => hr c (List.mem_reverse.mp hc))]

/-- Characters related by case-insensitive equality: equal after
upper-casing. -/
abbrev CaseEq (a b : Char) : Prop :=
  upChar a = upChar b

theorem jsWS_eq_of_caseEq {a b : Char} (h : CaseEq a b) : jsWS a = jsWS b := by
  rw [← jsWS_upChar a, ← jsWS_upChar b, h]

theorem forall₂_caseEq_dropWS {xs ys : List Char}
    (h : List.Forall₂ CaseEq xs ys) :
    List.Forall₂ CaseEq (dropWS xs) (dropWS ys) := by
  induction h with
  | nil => exact List.Forall₂.nil
  | cons hab hrest ih =>
    rename_i a b l₁ l₂
    have hws := jsWS_eq_of_caseEq hab
    by_cases ha : jsWS a
    · simp only [dropWS, List.dropWhile_cons, ha, ← hws, ite_true]
      exact ih
    · simp only [dropWS, List.dropWhile_cons, ha, ← hws, ite_false,
        Bool.false_eq_true]
      exact List.Forall₂.cons hab hrest

theorem forall₂_caseEq_reverse {xs ys : List Char}
    (h : List.Forall₂ CaseEq xs ys) :
    List.Forall₂ CaseEq xs.reverse ys.reverse :=
  List.rel_reverse h

theorem map_upChar_eq_of_forall₂ {xs ys : List Char}
    (h : List.Forall₂ CaseEq xs ys) : xs.map upChar = ys.map upChar := by
  induction h with
  | nil => rfl
  | cons hab _ ih =>
    simp only [List.map_cons]
    rw [show upChar _ = upChar _ from hab, ih]

theorem map_upChar_trimChars_eq {xs ys : List Char}
    (h : List.Forall₂ CaseEq xs ys) :
    (trimChars xs).map upChar = (trimChars ys).map upChar := by
  rw [trimChars, trimChars]
  exact map_upChar_eq_of_forall₂
    (forall₂_caseEq_reverse (forall₂_caseEq_dropWS
      (forall₂_caseEq_reverse (forall₂_caseEq_dropWS h))))

/-- Two postal-code strings that differ only by letter case and surrounding
whitespace: each splits into leading whitespace, a core, and trailing
whitespace, with the cores equal up to character case. -/
def PostalCaseWsVariant (p₁ p₂ : String) : Prop :=
  ∃ l₁ m₁ r₁ l₂ m₂ r₂ : List Char,
    p₁.data = l₁ ++ m₁ ++ r₁ ∧ p₂.data = l₂ ++ m₂ ++ r₂ ∧
    (∀ c ∈ l₁, jsWS c) ∧ (∀ c ∈ r₁, jsWS c) ∧
    (∀ c ∈ l₂, jsWS c) ∧ (∀ c ∈ r₂, jsWS c) ∧
    List.Forall₂ CaseEq m₁ m₂

theorem colon_not_mem_countryData (d : Country) : ':' ∉ (countryStr d).data := by
  cases d <;> decide

theorem countryStr_data_inj {d₁ d₂ : Country}
    (h : (countryStr d₁).data = (countryStr d₂).data) : d₁ = d₂ := by
  cases d₁ <;> cases d₂ <;> first | rfl | exact absurd h (by decide)

theorem buildCacheKey_postal_aux (d : Country) (w x y z : ℚ) {p₁ p₂ : String}
    (h : PostalCaseWsVariant p₁ p₂) :
    buildCacheKey d w x y z p₁ = buildCacheKey d w x y z p₂ := by
  obtain ⟨l₁, m₁, r₁, l₂, m₂, r₂, h₁, h₂, hl₁, hr₁, hl₂, hr₂, hm⟩ := h
  have e₁ : jsUpper (jsTrim p₁) = ⟨(trimChars p₁.data).map upChar⟩ := rfl
  have e₂ : jsUpper (jsTrim p₂) = ⟨(trimChars p₂.data).map upChar⟩ := rfl
  have hp : jsUpper (jsTrim p₁) = jsUpper (jsTrim p₂) := by
    rw [e₁, e₂, h₁, h₂, trimChars_sandwich l₁ m₁ r₁ hl₁ hr₁,
      trimChars_sandwich l₂ m₂ r₂ hl₂ hr₂, map_upChar_trimChars_eq hm]
  rw [buildCacheKey, buildCacheKey, hp]

theorem buildCacheKey_inj_aux {d₁ d₂ : Country} {w₁ x₁ y₁ z₁ w₂ x₂ y₂ z₂ : ℚ}
    {p : String}
    (h : buildCacheKey d₁ w₁ x₁ y₁ z₁ p = buildCacheKey d₂ w₂ x₂ y₂ z₂ p) :
    d₁ = d₂ ∧ w₁ = w₂ ∧ x₁ = x₂ ∧ y₁ = y₂ ∧ z₁ = z₂ := by
  have hd := congrArg String.data h
  simp only [buildCacheKey, String.data_append,
    show (":" : String).data = [':'] from rfl,
    show ∀ l : List Char, (String.mk l).data = l from fun _ => rfl,
    List.append_assoc, List.cons_append, List.nil_append] at hd
  have s₁ := sep_split ':' _ _ _ _ (colon_not_mem_countryData d₁)
    (colon_not_mem_countryData d₂) hd
  have s₂ := sep_split ':' _ _ _ _ (colon_not_mem_ratChars w₁)
    (colon_not_mem_ratChars w₂) s₁.2
  have s₃ := sep_split ':' _ _ _ _ (colon_not_mem_ratChars x₁)
    (colon_not_mem_ratChars x₂) s₂.2
  have s₄ := sep_split ':' _ _ _ _ (colon_not_mem_ratChars y₁)
    (colon_not_mem_ratChars y₂) s₃.2
  have s₅ := sep_split ':' _ _ _ _ (colon_not_mem_ratChars z₁)
    (colon_not_mem_ratChars z₂) s₄.2
  exact ⟨countryStr_data_inj s₁.1, ratChars_inj s₂.1, ratChars_inj s₃.1,
    ratChars_inj s₄.1, ratChars_inj s₅.1⟩


/-!
Helper lemmas: cache lookup, pruning, and insertion.
-/

theorem cacheGet_cons_pos {a : String × CacheEntry} {t : Cache} {key : String}
    (h : a.1 = key) : cacheGet (a :: t) key = some a.2 := by
  rw [cacheGet, List.find?_cons_of_pos _ (by simp [h])]
  rfl

theorem cacheGet_cons_neg {a : String × CacheEntry} {t : Cache} {key : String}
    (h : ¬ a.1 = key) : cacheGet (a :: t) key = cacheGet t key := by
  rw [cacheGet, List.find?_cons_of_neg _ (by simp [h]), cacheGet]

theorem prune_cons_live {a : String × CacheEntry} {t : Cache} {now : ℤ}
    (h : ¬ a.2.expiresAt ≤ now) :
    pruneCache now (a :: t) = a :: pruneCache now t := by
  rw [pruneCache, List.filter_cons_of_pos (by simp [h]), pruneCache]

theorem prune_cons_expired {a : String × CacheEntry} {t : Cache} {now : ℤ}
    (h : a.2.expiresAt ≤ now) :
    pruneCache now (a :: t) = pruneCache now t := by
  rw [pruneCache, List.filter_cons_of_neg (by simp [h]), pruneCache]

theorem cacheGet_prune_live {cache : Cache} {key : String} {now : ℤ}
    {e : CacheEntry} (h : cacheGet cache key = some e)
    (hlive : ¬ e.expiresAt ≤ now) :
    cacheGet (pruneCache now cache) key = some e := by
  induction cache with
  | nil => simp [cacheGet] at h
  | cons a t ih =>
    by_cases ha : a.1 = key
    · have he : a.2 = e := by rw [cacheGet_cons_pos ha] at h; injection h
      subst he
      rw [prune_cons_live hlive, cacheGet_cons_pos ha]
    · rw [cacheGet_cons_neg ha] at h
      by_cases hk : a.2.expiresAt ≤ now
      · rw [prune_cons_expired hk]
        exact ih h
      · rw [prune_cons_live hk, cacheGet_cons_neg ha]
        exact ih h

theorem cacheGet_none_of_not_mem {cache : Cache} {key : String}
    (h : key ∉ cache.map Prod.fst) : cacheGet cache key = none := by
  induction cache with
  | nil => rfl
  | cons a t ih =>
    simp only [List.map_cons, List.mem_cons] at h
    push_neg at h
    rw [cacheGet_cons_neg (fun hc => h.1 hc.symm)]
    exact ih h.2

theorem cacheGet_filter_none {cache : Cache} {key : String}
    (p : String × CacheEntry → Bool) (h : cacheGet cache key = none) :
    cacheGet (cache.filter p) key = none := by
  induction cache with
  | nil => rfl
  | cons a t ih =>
    by_cases ha : a.1 = key
    · rw [cacheGet_cons_pos ha] at h
      exact absurd h (by simp)
    · rw [cacheGet_cons_neg ha] at h
      by_cases hp : p a
      · rw [List.filter_cons_of_pos hp, cacheGet_cons_neg ha]
        exact ih h
      · rw [List.filter_cons_of_neg (by simpa using hp)]
        exact ih h

theorem cacheGet_prune_expired {cache : Cache} {key : String} {now : ℤ}
    {e : CacheEntry} (hnd : (cache.map Prod.fst).Nodup)
    (h : cacheGet cache key = some e) (hexp : e.expiresAt ≤ now) :
    cacheGet (pruneCache now cache) key = none := by
  induction cache with
  | nil => simp [cacheGet] at h
  | cons a t ih =>
    simp only [List.map_cons, List.nodup_cons] at hnd
    by_cases ha : a.1 = key
    · have he : a.2 = e := by rw [cacheGet_cons_pos ha] at h; injection h
      subst he
      rw [prune_cons_expired hexp]
      have hnone : cacheGet t key = none :=
        cacheGet_none_of_not_mem (ha ▸ hnd.1)
      exact cacheGet_filter_none _ hnone
    · rw [cacheGet_cons_neg ha] at h
      by_cases hk : a.2.expiresAt ≤ now
      · rw [prune_cons_expired hk]
        exact ih hnd.2 h
      · rw [prune_cons_live hk, cacheGet_cons_neg ha]
        exact ih hnd.2 h

theorem cacheGet_cacheSet_self (cache : Cache) (key : String)
    (entry : CacheEntry) :
    cacheGet (cacheSet cache key entry) key = some entry := by
  rw [cacheSet]
  by_cases hany : cache.any (fun e => e.1 == key)
  · rw [if_pos hany]
    induction cache with
    | nil => simp at hany
    | cons a t ih =>
      by_cases ha : a.1 = key
      · rw [List.map_cons, if_pos (by simp [ha])]
        exact cacheGet_cons_pos rfl
      · have hat : t.any (fun e => e.1 == key) := by
          simpa [List.any_cons, ha] using hany
        rw [List.map_cons, if_neg (by simp [ha])]
        rw [cacheGet_cons_neg ha]
        exact ih hat
  · rw [if_neg hany]
    induction cache with
    | nil => exact cacheGet_cons_pos rfl
    | cons a t ih =>
      simp only [List.any_cons, Bool.or_eq_true, not_or] at hany
      have ha : ¬ a.1 = key := by simpa using hany.1
      rw [List.cons_append, cacheGet_cons_neg ha]
      exact ih (by simpa using hany.2)

theorem cacheGet_map_set_other {t : Cache} {key key' : String}
    (entry : CacheEntry) (h : key' ≠ key) :
    cacheGet (t.map (fun e => if e.1 == key then (key, entry) else e)) key'
      = cacheGet t key' := by
  induction t with
  | nil => rfl
  | cons a u ih =>
    rw [List.map_cons]
    by_cases ha : a.1 = key
    · rw [if_pos (by simp [ha])]
      rw [cacheGet_cons_neg (fun hc => h hc.symm),
        cacheGet_cons_neg (fun hc => h (ha ▸ hc).symm)]
      exact ih
    · rw [if_neg (by simp [ha])]
      by_cases hak : a.1 = key'
      · rw [cacheGet_cons_pos hak, cacheGet_cons_pos hak]
      · rw [cacheGet_cons_neg hak, cacheGet_cons_neg hak]
        exact ih

theorem cacheGet_cacheSet_other {cache : Cache} {key key' : String}
    (entry : CacheEntry) (h : key' ≠ key) :
    cacheGet (cacheSet cache key entry) key' = cacheGet cache key' := by
  rw [cacheSet]
  by_cases hany : cache.any (fun e => e.1 == key)
  · rw [if_pos hany]
    exact cacheGet_map_set_other entry h
  · rw [if_neg hany]
    induction cache with
    | nil =>
      rw [List.nil_append]
      exact cacheGet_cons_neg (fun hc => h hc.symm)
    | cons a t ih =>
      simp only [List.any_cons, Bool.or_eq_true, not_or] at hany
      rw [List.cons_append]
      by_cases hak : a.1 = key'
      · rw [cacheGet_cons_pos hak, cacheGet_cons_pos hak]
      · rw [cacheGet_cons_neg hak, cacheGet_cons_neg hak]
        exact ih (by simpa using hany.2)

/-!
Helper lemmas: evaluation of `getRatesForDestination` by branch.
-/

theorem cacheGet_prune_bound {cache : Cache} {key : String} {now : ℤ}
    {e : CacheEntry}
    (h : cacheGet (pruneCache now cache) key = some e) : now < e.expiresAt := by
  rw [cacheGet] at h
  cases hf : List.find? (fun x => x.1 == key) (pruneCache now cache) with
  | none => rw [hf] at h; simp at h
  | some p =>
    rw [hf] at h
    have hp : p.2 = e := by simpa using h
    have hmem := List.mem_of_find?_eq_some hf
    have := List.of_mem_filter hmem
    simp only [Bool.not_eq_true', decide_eq_false_iff_not, not_le] at this
    exact hp ▸ this

theorem getRates_cache_hit {apiKey : Option String} {outcome : FetchOutcome}
    {country : Country} {postal : String} {w x y z : ℚ} {now : ℤ}
    {cache : Cache} {e : CacheEntry}
    (h : cacheGet (pruneCache now cache) (buildCacheKey country w x y z postal)
      = some e) :
    getRatesForDestination apiKey outcome country postal w x y z now cache =
      .ok (e.value, pruneCache now cache, false) := by
  have hlt : now < e.expiresAt := cacheGet_prune_bound h
  simp only [getRatesForDestination, h, hlt, ite_true, if_pos]

theorem getRates_miss_reject {country : Country} {postal : String}
    {w x y z : ℚ} {now : ℤ} {cache : Cache} (k : String)
    (h : cacheGet (pruneCache now cache) (buildCacheKey country w x y z postal)
      = none) :
    getRatesForDestination (some k) .reject country postal w x y z now cache =
      .error () := by
  simp only [getRatesForDestination, h, fetchRates]

theorem getRates_miss_no_key {outcome : FetchOutcome} {country : Country}
    {postal : String} {w x y z : ℚ} {now : ℤ} {cache : Cache}
    (h : cacheGet (pruneCache now cache) (buildCacheKey country w x y z postal)
      = none) :
    getRatesForDestination none outcome country postal w x y z now cache =
      .ok ({ rates := [],
             errors := [failString country 500
               (.str "SHIPANDCO_API_KEY が設定されていません。")] },
        pruneCache now cache, true) := by
  simp only [getRatesForDestination, h, fetchRates]

theorem getRates_miss_upstream_failure {d : Country} {p : String}
    {w x y z : ℚ} {t : ℤ} {m : Cache} (k : String) {s : Nat}
    {e : JsVal}
    (h : cacheGet (pruneCache t m) (buildCacheKey d w x y z p)
      = none)
    (hs : jsOkStatus s = false) :
    getRatesForDestination (some k) (.resolve s e) d p
        w x y z t m =
      .ok ({ rates := [], errors := [failString d s (failureMessage e)] },
        pruneCache t m, true) := by
  simp only [getRatesForDestination, h, fetchRates, hs, Bool.false_eq_true,
    ite_false]

theorem getRates_miss_success {d : Country} {p : String}
    {w x y z : ℚ} {t : ℤ} {m : Cache} (k : String) {s : Nat}
    {e : JsVal}
    (h : cacheGet (pruneCache t m) (buildCacheKey d w x y z p)
      = none)
    (hs : jsOkStatus s = true) :
    getRatesForDestination (some k) (.resolve s e) d p
        w x y z t m =
      .ok (processSuccess e,
        cacheSet (pruneCache t m) (buildCacheKey d w x y z p)
          { expiresAt := t + CACHE_TTL_MS, value := processSuccess e },
        true) := by
  simp only [getRatesForDestination, h, fetchRates, hs, ite_true]

/-!
Helper lemmas: evaluation of `POST` by branch.
-/

theorem POST_parse_fail (apiKey : Option String) (us uk : FetchOutcome)
    (nowUS nowUK : ℤ) (cache : Cache) :
    POST apiKey us uk none nowUS nowUK cache =
      .ok (.badRequest "リクエストが不正です。", cache) := rfl

theorem POST_falsy {apiKey : Option String} {us uk : FetchOutcome} {b : JsVal}
    {nowUS nowUK : ℤ} {cache : Cache} (h : jsTruthy b = false) :
    POST apiKey us uk (some b) nowUS nowUK cache =
      .ok (.badRequest "リクエストが不正です。", cache) := by
  simp [POST, h]

theorem POST_dims_invalid {apiKey : Option String} {us uk : FetchOutcome}
    {b : JsVal} {nowUS nowUK : ℤ} {cache : Cache} (ht : jsTruthy b = true)
    (h : (jsIsFinite (jsToNumber (jsGet b "weight")) &&
        jsIsFinite (jsToNumber (jsGet b "width")) &&
        jsIsFinite (jsToNumber (jsGet b "height")) &&
        jsIsFinite (jsToNumber (jsGet b "depth"))) = false) :
    POST apiKey us uk (some b) nowUS nowUK cache =
      .ok (.badRequest "重量・サイズの入力が不正です。", cache) := by
  simp [POST, ht, h]

theorem POST_run_ok {apiKey : Option String} {us uk : FetchOutcome} {b : JsVal}
    {nowUS nowUK : ℤ} {cache c₁ c₂ : Cache} {usR ukR : RatesResult}
    {f₁ f₂ : Bool} (ht : jsTruthy b = true)
    (hfin : (jsIsFinite (jsToNumber (jsGet b "weight")) &&
        jsIsFinite (jsToNumber (jsGet b "width")) &&
        jsIsFinite (jsToNumber (jsGet b "height")) &&
        jsIsFinite (jsToNumber (jsGet b "depth"))) = true)
    (hUS : getRatesForDestination apiKey us .US
        (postalOrDefault (jsGet b "usZip") "10001")
        (finQ (jsToNumber (jsGet b "weight"))) (finQ (jsToNumber (jsGet b "width")))
        (finQ (jsToNumber (jsGet b "height"))) (finQ (jsToNumber (jsGet b "depth")))
        nowUS cache = .ok (usR, c₁, f₁))
    (hUK : getRatesForDestination apiKey uk .GB
        (postalOrDefault (jsGet b "ukPostcode") "SW1A 1AA")
        (finQ (jsToNumber (jsGet b "weight"))) (finQ (jsToNumber (jsGet b "width")))
        (finQ (jsToNumber (jsGet b "height"))) (finQ (jsToNumber (jsGet b "depth")))
        nowUK c₁ = .ok (ukR, c₂, f₂)) :
    POST apiKey us uk (some b) nowUS nowUK cache =
      .ok (.okResp usR ukR, c₂) := by
  simp [POST, ht, hfin, hUS, hUK]

theorem POST_run_us_error {apiKey : Option String} {us uk : FetchOutcome}
    {b : JsVal} {nowUS nowUK : ℤ} {cache : Cache} (ht : jsTruthy b = true)
    (hfin : (jsIsFinite (jsToNumber (jsGet b "weight")) &&
        jsIsFinite (jsToNumber (jsGet b "width")) &&
        jsIsFinite (jsToNumber (jsGet b "height")) &&
        jsIsFinite (jsToNumber (jsGet b "depth"))) = true)
    (hUS : getRatesForDestination apiKey us .US
        (postalOrDefault (jsGet b "usZip") "10001")
        (finQ (jsToNumber (jsGet b "weight"))) (finQ (jsToNumber (jsGet b "width")))
        (finQ (jsToNumber (jsGet b "height"))) (finQ (jsToNumber (jsGet b "depth")))
        nowUS cache = .error ()) :
    POST apiKey us uk (some b) nowUS nowUK cache = .error () := by
  simp [POST, ht, hfin, hUS]

/-!
The claims.
-/

/-- C4: for every destination, weight, width, height, and depth,
`buildCacheKey` yields identical cache keys for two postal codes that differ
only by letter case or surrounding whitespace; and for a fixed postal code
it yields distinct keys whenever the destination or any one of the numeric
dimensions differs. -/
theorem buildCacheKey_case_ws_insensitive_dimension_sensitive :
    (∀ (d : Country) (w x y z : ℚ) (p₁ p₂ : String),
      PostalCaseWsVariant p₁ p₂ →
        buildCacheKey d w x y z p₁ = buildCacheKey d w x y z p₂) ∧
    (∀ (d₁ d₂ : Country) (w₁ x₁ y₁ z₁ w₂ x₂ y₂ z₂ : ℚ) (p : String),
      (d₁, w₁, x₁, y₁, z₁) ≠ (d₂, w₂, x₂, y₂, z₂) →
        buildCacheKey d₁ w₁ x₁ y₁ z₁ p ≠ buildCacheKey d₂ w₂ x₂ y₂ z₂ p) := by
  constructor
  · intro d w x y z p₁ p₂ h
    exact buildCacheKey_postal_aux d w x y z h
  · intro d₁ d₂ w₁ x₁ y₁ z₁ w₂ x₂ y₂ z₂ p hne hkey
    obtain ⟨hd, hw, hx, hy, hz⟩ := buildCacheKey_inj_aux hkey
    exact hne (by rw [hd, hw, hx, hy, hz])

/-- Witness for C4 at concrete inputs: `" nw1a 1aa "` and `"NW1A 1AA"`
collide, while changing one dimension (height 10 to 11) separates keys. -/
theorem buildCacheKey_case_ws_insensitive_dimension_sensitive_witness :
    (PostalCaseWsVariant " nw1a 1aa " "NW1A 1AA" ∧
      buildCacheKey .US 500 20 10 10 " nw1a 1aa "
        = buildCacheKey .US 500 20 10 10 "NW1A 1AA") ∧
    ((Country.US, (500 : ℚ), (20 : ℚ), (10 : ℚ), (10 : ℚ))
        ≠ (Country.US, (500 : ℚ), (20 : ℚ), (11 : ℚ), (10 : ℚ)) ∧
      buildCacheKey .US 500 20 10 10 "10001"
        ≠ buildCacheKey .US 500 20 11 10 "10001") := by
  have hv : PostalCaseWsVariant " nw1a 1aa " "NW1A 1AA" := by
    refine ⟨[' '], "nw1a 1aa".data, [' '], [], "NW1A 1AA".data, [],
      by decide, by decide, by decide, by decide, by decide, by decide, ?_⟩
    show List.Forall₂ CaseEq ['n', 'w', '1', 'a', ' ', '1', 'a', 'a']
      ['N', 'W', '1', 'A', ' ', '1', 'A', 'A']
    exact .cons (by decide) (.cons (by decide) (.cons (by decide)
      (.cons (by decide) (.cons (by decide) (.cons (by decide)
        (.cons (by decide) (.cons (by decide) .nil)))))))
  have hne : (Country.US, (500 : ℚ), (20 : ℚ), (10 : ℚ), (10 : ℚ))
      ≠ (Country.US, (500 : ℚ), (20 : ℚ), (11 : ℚ), (10 : ℚ)) := by
    intro h
    simp only [Prod.mk.injEq] at h
    exact absurd h.2.2.2.1 (by norm_num)
  exact ⟨⟨hv,
      buildCacheKey_case_ws_insensitive_dimension_sensitive.1
        .US 500 20 10 10 _ _ hv⟩,
    ⟨hne,
      buildCacheKey_case_ws_insensitive_dimension_sensitive.2
        .US .US 500 20 10 10 500 20 11 10 "10001" hne⟩⟩

/-- C5: for every cache entry created at time `t0` (expiry `t0 + 60s`), a
lookup with the same parameters at clock time `now` returns the cached
`RatesResult` unchanged without invoking the fetch path if and only if
`now < t0 + 60s`; at or after `t0 + 60s` the expired entry is purged lazily
on that access and the same parameters trigger a fresh fetch. -/
theorem getRates_cache_ttl :
    ∀ (apiKey : Option String) (status : Nat) (bodyJ : JsVal)
      (country : Country) (postal : String) (w x y z : ℚ) (t0 now : ℤ)
      (v : RatesResult) (cache : Cache),
      (cache.map Prod.fst).Nodup →
      cacheGet cache (buildCacheKey country w x y z postal)
        = some ⟨t0 + CACHE_TTL_MS, v⟩ →
      ∃ result cache' fetched,
        getRatesForDestination apiKey (.resolve status bodyJ) country postal
            w x y z now cache = .ok (result, cache', fetched) ∧
        ((result = v ∧ fetched = false) ↔ now < t0 + CACHE_TTL_MS) ∧
        (t0 + CACHE_TTL_MS ≤ now →
          fetched = true ∧
          cacheGet (pruneCache now cache) (buildCacheKey country w x y z postal)
            = none ∧
          (cacheGet cache' (buildCacheKey country w x y z postal) = none ∨
            ∃ r, cacheGet cache' (buildCacheKey country w x y z postal)
              = some ⟨now + CACHE_TTL_MS, r⟩)) := by
  intro apiKey status bodyJ country postal w x y z t0 now v cache hnd h
  by_cases hlt : now < t0 + CACHE_TTL_MS
  · have hlive : ¬ (CacheEntry.mk (t0 + CACHE_TTL_MS) v).expiresAt ≤ now := by
      show ¬ t0 + CACHE_TTL_MS ≤ now
      omega
    have hp := cacheGet_prune_live h hlive
    exact ⟨v, pruneCache now cache, false, getRates_cache_hit hp,
      ⟨fun _ => hlt, fun _ => ⟨rfl, rfl⟩⟩, fun hge => absurd hlt (by omega)⟩
  · have hge : t0 + CACHE_TTL_MS ≤ now := by omega
    have hexp : (CacheEntry.mk (t0 + CACHE_TTL_MS) v).expiresAt ≤ now := hge
    have hpruned := cacheGet_prune_expired hnd h hexp
    cases apiKey with
    | none =>
      refine ⟨_, _, _, getRates_miss_no_key hpruned, ?_, ?_⟩
      · exact ⟨fun hc => absurd hc.2 (by simp), fun hc => absurd hc hlt⟩
      · exact fun _ => ⟨rfl, hpruned, Or.inl hpruned⟩
    | some k =>
      by_cases hs : jsOkStatus status
      · refine ⟨_, _, _, getRates_miss_success k hpruned hs, ?_, ?_⟩
        · exact ⟨fun hc => absurd hc.2 (by simp), fun hc => absurd hc hlt⟩
        · exact fun _ => ⟨rfl, hpruned,
            Or.inr ⟨processSuccess bodyJ, cacheGet_cacheSet_self _ _ _⟩⟩
      · refine ⟨_, _, _,
          getRates_miss_upstream_failure k hpruned (by simpa using hs), ?_, ?_⟩
        · exact ⟨fun hc => absurd hc.2 (by simp), fun hc => absurd hc hlt⟩
        · exact fun _ => ⟨rfl, hpruned, Or.inl hpruned⟩

/-- Witness for C5: a concrete entry created at `t0 = 0` looked up at
`now = 1000` (inside the TTL window). -/
theorem getRates_cache_ttl_witness :
    ((([(buildCacheKey .US 1 1 1 1 "10001",
        CacheEntry.mk ((0 : ℤ) + CACHE_TTL_MS) (RatesResult.mk [] []))] : Cache).map
          Prod.fst).Nodup ∧
      cacheGet [(buildCacheKey .US 1 1 1 1 "10001",
          CacheEntry.mk ((0 : ℤ) + CACHE_TTL_MS) (RatesResult.mk [] []))]
          (buildCacheKey .US 1 1 1 1 "10001")
        = some (CacheEntry.mk ((0 : ℤ) + CACHE_TTL_MS) (RatesResult.mk [] []))) ∧
    (∃ result cache' fetched,
      getRatesForDestination (some "k") (.resolve 200 .null) .US "10001"
          1 1 1 1 1000
          [(buildCacheKey .US 1 1 1 1 "10001",
            CacheEntry.mk ((0 : ℤ) + CACHE_TTL_MS) (RatesResult.mk [] []))]
        = .ok (result, cache', fetched) ∧
      ((result = RatesResult.mk [] [] ∧ fetched = false) ↔
        (1000 : ℤ) < 0 + CACHE_TTL_MS) ∧
      ((0 : ℤ) + CACHE_TTL_MS ≤ 1000 →
        fetched = true ∧
        cacheGet (pruneCache 1000
            [(buildCacheKey .US 1 1 1 1 "10001",
              CacheEntry.mk ((0 : ℤ) + CACHE_TTL_MS) (RatesResult.mk [] []))])
            (buildCacheKey .US 1 1 1 1 "10001") = none ∧
        (cacheGet cache' (buildCacheKey .US 1 1 1 1 "10001") = none ∨
          ∃ r, cacheGet cache' (buildCacheKey .US 1 1 1 1 "10001")
            = some (CacheEntry.mk ((1000 : ℤ) + CACHE_TTL_MS) r)))) := by
  have hnd : ((([(buildCacheKey .US 1 1 1 1 "10001",
      CacheEntry.mk ((0 : ℤ) + CACHE_TTL_MS) (RatesResult.mk [] []))] : Cache).map
        Prod.fst).Nodup) := by simp
  have hget : cacheGet [(buildCacheKey .US 1 1 1 1 "10001",
      CacheEntry.mk ((0 : ℤ) + CACHE_TTL_MS) (RatesResult.mk [] []))]
      (buildCacheKey .US 1 1 1 1 "10001")
      = some (CacheEntry.mk ((0 : ℤ) + CACHE_TTL_MS) (RatesResult.mk [] [])) :=
    cacheGet_cons_pos rfl
  exact ⟨⟨hnd, hget⟩,
    getRates_cache_ttl (some "k") 200 .null .US "10001" 1 1 1 1 0 1000
      (RatesResult.mk [] []) _ hnd hget⟩

/-- Counterexample to C3 as stated: on a cache miss with a non-2xx upstream
response, the failure result (empty quote list, one synthesized error
string) is returned with the cache left without any entry for the key — the
result is not stored. -/
theorem getRates_failure_not_cached_counterexample :
    getRatesForDestination (some "k") (.resolve 500 .null) .US "10001"
        1 1 1 1 0 []
      = .ok (RatesResult.mk []
            ["Ship&Co API 失敗 (US): 500 Ship&Co API の呼び出しに失敗しました。"],
        [], true) ∧
    cacheGet ([] : Cache) (buildCacheKey .US 1 1 1 1 "10001") = none := by
  constructor
  · have h := getRates_miss_upstream_failure (d := .US) (p := "10001")
      (w := 1) (x := 1) (y := 1) (z := 1) (t := 0) (m := []) "k"
      (s := 500) (e := .null) rfl rfl
    rw [h]
    rfl
  · rfl

/-- C3 amended: on every cache miss with a successful (2xx) upstream
response, the computed `RatesResult` is stored into the cache with a fresh
expiry (`now + 60s`) before being returned; the failure result produced on
a non-2xx response is returned without being stored (the cache keeps no
entry for the key). -/
theorem getRates_store_on_success :
    ∀ (k : String) (status : Nat) (body : JsVal) (country : Country)
      (postal : String) (w x y z : ℚ) (now : ℤ) (cache : Cache),
      cacheGet (pruneCache now cache) (buildCacheKey country w x y z postal)
        = none →
      (jsOkStatus status = true →
        getRatesForDestination (some k) (.resolve status body) country postal
            w x y z now cache
          = .ok (processSuccess body,
              cacheSet (pruneCache now cache)
                (buildCacheKey country w x y z postal)
                (CacheEntry.mk (now + CACHE_TTL_MS) (processSuccess body)),
              true) ∧
        cacheGet
            (cacheSet (pruneCache now cache)
              (buildCacheKey country w x y z postal)
              (CacheEntry.mk (now + CACHE_TTL_MS) (processSuccess body)))
            (buildCacheKey country w x y z postal)
          = some (CacheEntry.mk (now + CACHE_TTL_MS) (processSuccess body))) ∧
      (jsOkStatus status = false →
        getRatesForDestination (some k) (.resolve status body) country postal
            w x y z now cache
          = .ok (RatesResult.mk []
                [failString country status (failureMessage body)],
              pruneCache now cache, true) ∧
        cacheGet (pruneCache now cache) (buildCacheKey country w x y z postal)
          = none) := by
  intro k status body country postal w x y z now cache h
  constructor
  · intro hs
    exact ⟨getRates_miss_success k h hs, cacheGet_cacheSet_self _ _ _⟩
  · intro hs
    exact ⟨getRates_miss_upstream_failure k h hs, h⟩

/-- Witness for the amended C3 at a concrete 2xx response on an empty
cache. -/
theorem getRates_store_on_success_witness :
    cacheGet (pruneCache 0 []) (buildCacheKey .US 1 1 1 1 "10001") = none ∧
    ((jsOkStatus 200 = true →
      getRatesForDestination (some "k") (.resolve 200 .null) .US "10001"
          1 1 1 1 0 []
        = .ok (processSuccess .null,
            cacheSet (pruneCache 0 []) (buildCacheKey .US 1 1 1 1 "10001")
              (CacheEntry.mk ((0 : ℤ) + CACHE_TTL_MS) (processSuccess .null)),
            true) ∧
      cacheGet
          (cacheSet (pruneCache 0 []) (buildCacheKey .US 1 1 1 1 "10001")
            (CacheEntry.mk ((0 : ℤ) + CACHE_TTL_MS) (processSuccess .null)))
          (buildCacheKey .US 1 1 1 1 "10001")
        = some (CacheEntry.mk ((0 : ℤ) + CACHE_TTL_MS) (processSuccess .null))) ∧
    (jsOkStatus 200 = false →
      getRatesForDestination (some "k") (.resolve 200 .null) .US "10001"
          1 1 1 1 0 []
        = .ok (RatesResult.mk [] [failString .US 200 (failureMessage .null)],
            pruneCache 0 [], true) ∧
      cacheGet (pruneCache 0 []) (buildCacheKey .US 1 1 1 1 "10001") = none)) :=
  ⟨rfl, getRates_store_on_success "k" 200 .null .US "10001" 1 1 1 1 0 [] rfl⟩

/-- Counterexample to C1 as stated: with a valid body and the access token
present, a failing outbound call (rejected fetch promise) is not converted
to error strings — it escapes the handler as an uncaught exception
(non-200), even though the same body with resolving outcomes yields a 200
response. -/
theorem POST_reject_escape_counterexample :
    POST (some "k") .reject (.resolve 200 .null)
        (some (.obj [("weight", .num (.fin 1)), ("width", .num (.fin 1)),
          ("height", .num (.fin 1)), ("depth", .num (.fin 1))])) 0 0 []
      = .error () ∧
    (∃ us uk c,
      POST (some "k") (.resolve 200 .null) (.resolve 200 .null)
          (some (.obj [("weight", .num (.fin 1)), ("width", .num (.fin 1)),
            ("height", .num (.fin 1)), ("depth", .num (.fin 1))])) 0 0 []
        = .ok (.okResp us uk, c)) :=
  ⟨rfl, ⟨_, _, _, rfl⟩⟩

/-- C1 amended: failures other than a rejected outbound call are never
thrown and are encoded as error strings in the returned `RatesResult`'s
`errors` field: a missing access token yields the single configuration
error string, a non-2xx status (with a parseable or unparseable body)
yields the single synthesized upstream-failure string, and an unparseable
body on a 2xx response yields the three gap-fill error strings; the `POST`
handler then returns a non-200 response only for inbound-request validation
failures; a rejected outbound fetch, however, escapes as an exception. -/
theorem pipeline_failures_as_data :
    (∀ (apiKey : Option String) (outcome : FetchOutcome) (country : Country)
        (postal : String) (w x y z : ℚ) (now : ℤ) (cache : Cache),
      apiKey = none ∨ outcome ≠ .reject →
      ∃ result cache' fetched,
        getRatesForDestination apiKey outcome country postal w x y z now cache
          = .ok (result, cache', fetched)) ∧
    (∀ (outcome : FetchOutcome) (country : Country) (postal : String)
        (w x y z : ℚ) (now : ℤ) (cache : Cache),
      cacheGet (pruneCache now cache) (buildCacheKey country w x y z postal)
        = none →
      getRatesForDestination none outcome country postal w x y z now cache
        = .ok (RatesResult.mk []
            [failString country 500
              (.str "SHIPANDCO_API_KEY が設定されていません。")],
          pruneCache now cache, true)) ∧
    (∀ (k : String) (status : Nat) (body : JsVal) (country : Country)
        (postal : String) (w x y z : ℚ) (now : ℤ) (cache : Cache),
      cacheGet (pruneCache now cache) (buildCacheKey country w x y z postal)
        = none →
      jsOkStatus status = false →
      getRatesForDestination (some k) (.resolve status body) country postal
          w x y z now cache
        = .ok (RatesResult.mk []
            [failString country status (failureMessage body)],
          pruneCache now cache, true)) ∧
    ((processSuccess JsVal.null).rates = [] ∧
      (processSuccess JsVal.null).errors
        = [gapFillMsg "japanpost_ems", gapFillMsg "japanpost_epacket_light",
           gapFillMsg "japanpost_smallpacket_air"]) ∧
    (∀ (apiKey : Option String) (us uk : FetchOutcome) (body : Option JsVal)
        (nowUS nowUK : ℤ) (cache : Cache),
      (apiKey = none ∨ us ≠ .reject) → (apiKey = none ∨ uk ≠ .reject) →
      ∃ resp cache',
        POST apiKey us uk body nowUS nowUK cache = .ok (resp, cache') ∧
        (statusOf resp ≠ 200 →
          body = none ∨
          ∃ b, body = some b ∧
            (jsTruthy b = false ∨
              (jsIsFinite (jsToNumber (jsGet b "weight")) &&
                jsIsFinite (jsToNumber (jsGet b "width")) &&
                jsIsFinite (jsToNumber (jsGet b "height")) &&
                jsIsFinite (jsToNumber (jsGet b "depth"))) = false))) := by
  have h1 : ∀ (apiKey : Option String) (outcome : FetchOutcome)
      (country : Country) (postal : String) (w x y z : ℚ) (now : ℤ)
      (cache : Cache),
      apiKey = none ∨ outcome ≠ .reject →
      ∃ result cache' fetched,
        getRatesForDestination apiKey outcome country postal w x y z now cache
          = .ok (result, cache', fetched) := by
    intro apiKey outcome country postal w x y z now cache hk
    cases hc : cacheGet (pruneCache now cache)
        (buildCacheKey country w x y z postal) with
    | some e => exact ⟨_, _, _, getRates_cache_hit hc⟩
    | none =>
      cases apiKey with
      | none => exact ⟨_, _, _, getRates_miss_no_key hc⟩
      | some k =>
        cases outcome with
        | reject =>
          rcases hk with hk | hk
          · exact absurd hk (by simp)
          · exact absurd rfl hk
        | resolve status body =>
          by_cases hs : jsOkStatus status
          · exact ⟨_, _, _, getRates_miss_success k hc hs⟩
          · exact ⟨_, _, _,
              getRates_miss_upstream_failure k hc (by simpa using hs)⟩
  refine ⟨h1, ?_, ?_, ⟨rfl, rfl⟩, ?_⟩
  · intro outcome country postal w x y z now cache hc
    exact getRates_miss_no_key hc
  · intro k status body country postal w x y z now cache hc hs
    exact getRates_miss_upstream_failure k hc hs
  intro apiKey us uk body nowUS nowUK cache hus huk
  cases body with
  | none =>
    exact ⟨_, _, POST_parse_fail apiKey us uk nowUS nowUK cache,
      fun _ => Or.inl rfl⟩
  | some b =>
    by_cases ht : jsTruthy b
    · by_cases hfin : (jsIsFinite (jsToNumber (jsGet b "weight")) &&
          jsIsFinite (jsToNumber (jsGet b "width")) &&
          jsIsFinite (jsToNumber (jsGet b "height")) &&
          jsIsFinite (jsToNumber (jsGet b "depth"))) = true
      · obtain ⟨usR, c₁, f₁, hUS⟩ := h1 apiKey us .US
          (postalOrDefault (jsGet b "usZip") "10001")
          (finQ (jsToNumber (jsGet b "weight")))
          (finQ (jsToNumber (jsGet b "width")))
          (finQ (jsToNumber (jsGet b "height")))
          (finQ (jsToNumber (jsGet b "depth"))) nowUS cache hus
        obtain ⟨ukR, c₂, f₂, hUK⟩ := h1 apiKey uk .GB
          (postalOrDefault (jsGet b "ukPostcode") "SW1A 1AA")
          (finQ (jsToNumber (jsGet b "weight")))
          (finQ (jsToNumber (jsGet b "width")))
          (finQ (jsToNumber (jsGet b "height")))
          (finQ (jsToNumber (jsGet b "depth"))) nowUK c₁ huk
        exact ⟨_, _, POST_run_ok ht hfin hUS hUK,
          fun hne => absurd rfl hne⟩
      · exact ⟨_, _, POST_dims_invalid ht (by simpa using hfin),
          fun _ => Or.inr ⟨b, rfl, Or.inr (by simpa using hfin)⟩⟩
    · exact ⟨_, _, POST_falsy (by simpa using ht),
        fun _ => Or.inr ⟨b, rfl, Or.inl (by simpa using ht)⟩⟩

/-- Witness for the amended C1: a missing access token and a 500 upstream
response are both returned as single error strings at concrete inputs, and
a concrete valid request with resolving outcomes yields a 200. -/
theorem pipeline_failures_as_data_witness :
    ((none : Option String) = none ∨ FetchOutcome.reject ≠ .reject) ∧
    (∃ result cache' fetched,
      getRatesForDestination none .reject .US "10001" 1 1 1 1 0 []
        = .ok (result, cache', fetched)) ∧
    (cacheGet (pruneCache 0 []) (buildCacheKey .US 1 1 1 1 "10001") = none ∧
      getRatesForDestination none (.resolve 200 .null) .US "10001" 1 1 1 1 0 []
        = .ok (RatesResult.mk []
            [failString .US 500
              (.str "SHIPANDCO_API_KEY が設定されていません。")],
          pruneCache 0 [], true)) ∧
    (jsOkStatus 500 = false ∧
      getRatesForDestination (some "k") (.resolve 500 .null) .GB "SW1A 1AA"
          1 1 1 1 0 []
        = .ok (RatesResult.mk [] [failString .GB 500 (failureMessage .null)],
          pruneCache 0 [], true)) ∧
    (∃ resp cache',
      POST (some "k") (.resolve 200 .null) (.resolve 200 .null)
          (some (.obj [("weight", .num (.fin 1)), ("width", .num (.fin 1)),
            ("height", .num (.fin 1)), ("depth", .num (.fin 1))])) 0 0 []
        = .ok (resp, cache') ∧
      (statusOf resp ≠ 200 →
        (some (.obj [("weight", .num (.fin 1)), ("width", .num (.fin 1)),
          ("height", .num (.fin 1)), ("depth", .num (.fin 1))]) :
            Option JsVal) = none ∨
        ∃ b, (some (.obj [("weight", .num (.fin 1)), ("width", .num (.fin 1)),
          ("height", .num (.fin 1)), ("depth", .num (.fin 1))]) :
            Option JsVal) = some b ∧
          (jsTruthy b = false ∨
            (jsIsFinite (jsToNumber (jsGet b "weight")) &&
              jsIsFinite (jsToNumber (jsGet b "width")) &&
              jsIsFinite (jsToNumber (jsGet b "height")) &&
              jsIsFinite (jsToNumber (jsGet b "depth"))) = false))) :=
  ⟨Or.inl rfl,
    pipeline_failures_as_data.1 none .reject .US "10001" 1 1 1 1 0 []
      (Or.inl rfl),
    ⟨rfl, pipeline_failures_as_data.2.1 (.resolve 200 .null) .US "10001"
      1 1 1 1 0 [] rfl⟩,
    ⟨rfl, pipeline_failures_as_data.2.2.1 "k" 500 .null .GB "SW1A 1AA"
      1 1 1 1 0 [] rfl rfl⟩,
    pipeline_failures_as_data.2.2.2.2 (some "k") (.resolve 200 .null)
      (.resolve 200 .null)
      (some (.obj [("weight", .num (.fin 1)), ("width", .num (.fin 1)),
        ("height", .num (.fin 1)), ("depth", .num (.fin 1))])) 0 0 []
      (Or.inr (fun h => FetchOutcome.noConfusion h))
      (Or.inr (fun h => FetchOutcome.noConfusion h))⟩

/-- The cache key determines the destination country (first `:`-separated
component), whatever the other parameters are. -/
theorem buildCacheKey_country_inj {d₁ d₂ : Country}
    {w₁ x₁ y₁ z₁ w₂ x₂ y₂ z₂ : ℚ} {p₁ p₂ : String}
    (h : buildCacheKey d₁ w₁ x₁ y₁ z₁ p₁ = buildCacheKey d₂ w₂ x₂ y₂ z₂ p₂) :
    d₁ = d₂ := by
  have hd := congrArg String.data h
  simp only [buildCacheKey, String.data_append,
    show (":" : String).data = [':'] from rfl,
    show ∀ l : List Char, (String.mk l).data = l from fun _ => rfl,
    List.append_assoc, List.cons_append, List.nil_append] at hd
  have s₁ := sep_split ':' _ _ _ _ (colon_not_mem_countryData d₁)
    (colon_not_mem_countryData d₂) hd
  exact countryStr_data_inj s₁.1

/-- C2: when the US destination fetch fails with a non-2xx upstream response
while the UK destination fetch succeeds, the combined result maps US to an
empty quote list with one synthesized error string, and UK to the
successfully fetched (filtered, non-empty) quote list whose errors are
exactly its own API-reported and gap-fill messages; the UK component is the
same whatever the US outcome was. -/
theorem POST_failure_isolation :
    ∀ (k : String) (sUS sUK : Nat) (bUS dUK b : JsVal) (nowUS nowUK : ℤ),
      jsTruthy b = true →
      (jsIsFinite (jsToNumber (jsGet b "weight")) &&
        jsIsFinite (jsToNumber (jsGet b "width")) &&
        jsIsFinite (jsToNumber (jsGet b "height")) &&
        jsIsFinite (jsToNumber (jsGet b "depth"))) = true →
      jsOkStatus sUS = false →
      jsOkStatus sUK = true →
      (processSuccess dUK).rates ≠ [] →
      ∃ cache',
        POST (some k) (.resolve sUS bUS) (.resolve sUK dUK) (some b)
            nowUS nowUK []
          = .ok (.okResp
              (RatesResult.mk [] [failString .US sUS (failureMessage bUS)])
              (processSuccess dUK), cache') ∧
        (processSuccess dUK).rates ≠ [] ∧
        (processSuccess dUK).errors
          = apiErrors (extractRaw dUK)
            ++ gapFill (((extractRaw dUK).filter allowQuote).map normalizeRate) ∧
        (∀ dUS : JsVal, jsOkStatus sUS = false → ∃ cache'',
          POST (some k) (.resolve sUK dUS) (.resolve sUK dUK) (some b)
              nowUS nowUK []
            = .ok (.okResp (processSuccess dUS) (processSuccess dUK),
                cache'')) := by
  intro k sUS sUK bUS dUK b nowUS nowUK ht hfin hsUS hsUK hne
  have hUS := getRates_miss_upstream_failure
    (d := .US) (p := postalOrDefault (jsGet b "usZip") "10001")
    (w := finQ (jsToNumber (jsGet b "weight")))
    (x := finQ (jsToNumber (jsGet b "width")))
    (y := finQ (jsToNumber (jsGet b "height")))
    (z := finQ (jsToNumber (jsGet b "depth")))
    (t := nowUS) (m := []) k (s := sUS) (e := bUS) rfl hsUS
  have hUK := getRates_miss_success
    (d := .GB) (p := postalOrDefault (jsGet b "ukPostcode") "SW1A 1AA")
    (w := finQ (jsToNumber (jsGet b "weight")))
    (x := finQ (jsToNumber (jsGet b "width")))
    (y := finQ (jsToNumber (jsGet b "height")))
    (z := finQ (jsToNumber (jsGet b "depth")))
    (t := nowUK) (m := pruneCache nowUS []) k
    (s := sUK) (e := dUK) rfl hsUK
  refine ⟨_, POST_run_ok ht hfin hUS hUK, hne, rfl, ?_⟩
  intro dUS _
  have hUS' := getRates_miss_success
    (d := .US) (p := postalOrDefault (jsGet b "usZip") "10001")
    (w := finQ (jsToNumber (jsGet b "weight")))
    (x := finQ (jsToNumber (jsGet b "width")))
    (y := finQ (jsToNumber (jsGet b "height")))
    (z := finQ (jsToNumber (jsGet b "depth")))
    (t := nowUS) (m := []) k (s := sUK) (e := dUS) rfl hsUK
  have hkey : buildCacheKey .GB
      (finQ (jsToNumber (jsGet b "weight"))) (finQ (jsToNumber (jsGet b "width")))
      (finQ (jsToNumber (jsGet b "height"))) (finQ (jsToNumber (jsGet b "depth")))
      (postalOrDefault (jsGet b "ukPostcode") "SW1A 1AA")
      ≠ buildCacheKey .US
      (finQ (jsToNumber (jsGet b "weight"))) (finQ (jsToNumber (jsGet b "width")))
      (finQ (jsToNumber (jsGet b "height"))) (finQ (jsToNumber (jsGet b "depth")))
      (postalOrDefault (jsGet b "usZip") "10001") := by
    intro hk
    exact Country.noConfusion (buildCacheKey_country_inj hk)
  have hmissUK : cacheGet
      (pruneCache nowUK
        (cacheSet (pruneCache nowUS [])
          (buildCacheKey .US
            (finQ (jsToNumber (jsGet b "weight")))
            (finQ (jsToNumber (jsGet b "width")))
            (finQ (jsToNumber (jsGet b "height")))
            (finQ (jsToNumber (jsGet b "depth")))
            (postalOrDefault (jsGet b "usZip") "10001"))
          (CacheEntry.mk (nowUS + CACHE_TTL_MS) (processSuccess dUS))))
      (buildCacheKey .GB
        (finQ (jsToNumber (jsGet b "weight")))
        (finQ (jsToNumber (jsGet b "width")))
        (finQ (jsToNumber (jsGet b "height")))
        (finQ (jsToNumber (jsGet b "depth")))
        (postalOrDefault (jsGet b "ukPostcode") "SW1A 1AA")) = none := by
    apply cacheGet_filter_none
    rw [show pruneCache nowUS ([] : Cache) = [] from rfl]
    rw [show cacheSet [] (buildCacheKey .US
        (finQ (jsToNumber (jsGet b "weight")))
        (finQ (jsToNumber (jsGet b "width")))
        (finQ (jsToNumber (jsGet b "height")))
        (finQ (jsToNumber (jsGet b "depth")))
        (postalOrDefault (jsGet b "usZip") "10001"))
        (CacheEntry.mk (nowUS + CACHE_TTL_MS) (processSuccess dUS))
      = [(buildCacheKey .US
          (finQ (jsToNumber (jsGet b "weight")))
          (finQ (jsToNumber (jsGet b "width")))
          (finQ (jsToNumber (jsGet b "height")))
          (finQ (jsToNumber (jsGet b "depth")))
          (postalOrDefault (jsGet b "usZip") "10001"),
        CacheEntry.mk (nowUS + CACHE_TTL_MS) (processSuccess dUS))] from rfl]
    exact cacheGet_cons_neg (fun hc => hkey hc.symm)
  have hUK' := getRates_miss_success
    (d := .GB) (p := postalOrDefault (jsGet b "ukPostcode") "SW1A 1AA")
    (w := finQ (jsToNumber (jsGet b "weight")))
    (x := finQ (jsToNumber (jsGet b "width")))
    (y := finQ (jsToNumber (jsGet b "height")))
    (z := finQ (jsToNumber (jsGet b "depth")))
    (t := nowUK) k (s := sUK) (e := dUK) hmissUK hsUK
  exact ⟨_, POST_run_ok ht hfin hUS' hUK'⟩

/-- Witness for C2: a concrete request where the US fetch returns 500 and
the UK fetch returns 200 with one DHL quote. -/
theorem POST_failure_isolation_witness :
    jsTruthy (JsVal.obj [("weight", .num (.fin 1)), ("width", .num (.fin 1)),
        ("height", .num (.fin 1)), ("depth", .num (.fin 1))]) = true ∧
    jsOkStatus 500 = false ∧
    jsOkStatus 200 = true ∧
    (processSuccess (.arr [.obj [("carrier", .str "DHL"),
        ("service", .str "dhl_express_worldwide")]])).rates ≠ [] ∧
    (∃ cache',
      POST (some "k") (.resolve 500 .null)
          (.resolve 200 (.arr [.obj [("carrier", .str "DHL"),
            ("service", .str "dhl_express_worldwide")]]))
          (some (.obj [("weight", .num (.fin 1)), ("width", .num (.fin 1)),
            ("height", .num (.fin 1)), ("depth", .num (.fin 1))])) 0 0 []
        = .ok (.okResp
            (RatesResult.mk [] [failString .US 500 (failureMessage .null)])
            (processSuccess (.arr [.obj [("carrier", .str "DHL"),
              ("service", .str "dhl_express_worldwide")]])), cache') ∧
      (processSuccess (.arr [.obj [("carrier", .str "DHL"),
          ("service", .str "dhl_express_worldwide")]])).rates ≠ [] ∧
      (processSuccess (.arr [.obj [("carrier", .str "DHL"),
          ("service", .str "dhl_express_worldwide")]])).errors
        = apiErrors (extractRaw (.arr [.obj [("carrier", .str "DHL"),
            ("service", .str "dhl_express_worldwide")]]))
          ++ gapFill (((extractRaw (.arr [.obj [("carrier", .str "DHL"),
              ("service", .str "dhl_express_worldwide")]])).filter
                allowQuote).map normalizeRate) ∧
      (∀ dUS : JsVal, jsOkStatus 500 = false → ∃ cache'',
        POST (some "k") (.resolve 200 dUS)
            (.resolve 200 (.arr [.obj [("carrier", .str "DHL"),
              ("service", .str "dhl_express_worldwide")]]))
            (some (.obj [("weight", .num (.fin 1)), ("width", .num (.fin 1)),
              ("height", .num (.fin 1)), ("depth", .num (.fin 1))])) 0 0 []
          = .ok (.okResp (processSuccess dUS)
              (processSuccess (.arr [.obj [("carrier", .str "DHL"),
                ("service", .str "dhl_express_worldwide")]])), cache''))) := by
  have hne : (processSuccess (.arr [.obj [("carrier", .str "DHL"),
      ("service", .str "dhl_express_worldwide")]])).rates ≠ [] := by
    intro h
    exact absurd (congrArg List.length h) (by decide)
  exact ⟨rfl, rfl, rfl, hne,
    POST_failure_isolation "k" 500 200 .null
      (.arr [.obj [("carrier", .str "DHL"),
        ("service", .str "dhl_express_worldwide")]])
      (.obj [("weight", .num (.fin 1)), ("width", .num (.fin 1)),
        ("height", .num (.fin 1)), ("depth", .num (.fin 1))]) 0 0
      rfl rfl rfl rfl hne⟩

/-- The lowercased carrier of a raw quote, as tested by the allow-list
filter. -/
def carrierLowerOf (rate : JsVal) : String :=
  jsLower (jsToStr (jsCoalesce (jsGet rate "carrier") (.str "")))

/-- C6: for any raw quote set containing a DHL quote with any service, a
FedEx quote with any service, two Japan Post quotes with allowed service
codes, one Japan Post quote with a disallowed code, and one unrelated
carrier, the allow-list filter keeps exactly the first four and silently
drops the last two (carrier matching is case-insensitive substring
containment). -/
theorem allowlist_filter_exact :
    ∀ (l : List JsVal) (q₁ q₂ q₃ q₄ q₅ q₆ : JsVal),
      includes (carrierLowerOf q₁) "dhl" = true →
      includes (carrierLowerOf q₂) "fedex" = true →
      (includes (carrierLowerOf q₃) "japan post"
        || includes (carrierLowerOf q₃) "japanpost") = true →
      JAPAN_POST_SERVICES.contains (jsToStr (jsGet q₃ "service")) = true →
      (includes (carrierLowerOf q₄) "japan post"
        || includes (carrierLowerOf q₄) "japanpost") = true →
      JAPAN_POST_SERVICES.contains (jsToStr (jsGet q₄ "service")) = true →
      includes (carrierLowerOf q₅) "dhl" = false →
      includes (carrierLowerOf q₅) "fedex" = false →
      (includes (carrierLowerOf q₅) "japan post"
        || includes (carrierLowerOf q₅) "japanpost") = true →
      JAPAN_POST_SERVICES.contains (jsToStr (jsGet q₅ "service")) = false →
      includes (carrierLowerOf q₆) "dhl" = false →
      includes (carrierLowerOf q₆) "fedex" = false →
      (includes (carrierLowerOf q₆) "japan post"
        || includes (carrierLowerOf q₆) "japanpost") = false →
      l.Perm [q₁, q₂, q₃, q₄, q₅, q₆] →
      (l.filter allowQuote).Perm [q₁, q₂, q₃, q₄] := by
  intro l q₁ q₂ q₃ q₄ q₅ q₆ h₁ h₂ h₃c h₃s h₄c h₄s h₅d h₅f h₅c h₅s h₆d h₆f h₆c hl
  have a₁ : allowQuote q₁ = true := by
    rw [allowQuote]
    simp only [carrierLowerOf] at h₁
    simp [h₁]
  have a₂ : allowQuote q₂ = true := by
    rw [allowQuote]
    simp only [carrierLowerOf] at h₂
    by_cases hd : includes (carrierLowerOf q₂) "dhl" <;>
      simp only [carrierLowerOf] at hd <;> simp [hd, h₂]
  have ajp : ∀ q, (includes (carrierLowerOf q) "japan post"
      || includes (carrierLowerOf q) "japanpost") = true →
      JAPAN_POST_SERVICES.contains (jsToStr (jsGet q "service")) = true →
      allowQuote q = true := by
    intro q hc hs
    rw [allowQuote]
    simp only [carrierLowerOf] at hc
    have hs' : jsToStr (jsGet q "service") ∈ JAPAN_POST_SERVICES := by
      simpa using hs
    by_cases hd : includes (jsLower (jsToStr (jsCoalesce (jsGet q "carrier")
        (.str "")))) "dhl" <;>
      by_cases hf : includes (jsLower (jsToStr (jsCoalesce (jsGet q "carrier")
        (.str "")))) "fedex" <;>
      simp [hd, hf, hc, hs']
  have a₃ := ajp q₃ h₃c h₃s
  have a₄ := ajp q₄ h₄c h₄s
  have a₅ : allowQuote q₅ = false := by
    rw [allowQuote]
    simp only [carrierLowerOf] at h₅d h₅f h₅c h₅s
    have hs' : jsToStr (jsGet q₅ "service") ∉ JAPAN_POST_SERVICES := by
      simpa using h₅s
    simp [h₅d, h₅f, h₅c, hs']
  have a₆ : allowQuote q₆ = false := by
    rw [allowQuote]
    simp only [carrierLowerOf] at h₆d h₆f h₆c
    obtain ⟨hc₁, hc₂⟩ := Bool.or_eq_false_iff.mp h₆c
    simp [h₆d, h₆f, hc₁, hc₂]
  have hperm := hl.filter allowQuote
  rwa [show List.filter allowQuote [q₁, q₂, q₃, q₄, q₅, q₆] = [q₁, q₂, q₃, q₄]
    from by simp [List.filter_cons, a₁, a₂, a₃, a₄, a₅, a₆]] at hperm

/-- Witness for C6 at a concrete six-quote set. -/
theorem allowlist_filter_exact_witness :
    includes (carrierLowerOf (.obj [("carrier", .str "DHL Express"),
      ("service", .str "whatever")])) "dhl" = true ∧
    includes (carrierLowerOf (.obj [("carrier", .str "FedEx"),
      ("service", .str "anything")])) "fedex" = true ∧
    JAPAN_POST_SERVICES.contains (jsToStr (jsGet (.obj
      [("carrier", .str "Japan Post"), ("service", .str "japanpost_ems")])
      "service")) = true ∧
    JAPAN_POST_SERVICES.contains (jsToStr (jsGet (.obj
      [("carrier", .str "Japan Post"),
        ("service", .str "japanpost_surface")]) "service")) = false ∧
    (List.filter allowQuote
        [.obj [("carrier", .str "DHL Express"), ("service", .str "whatever")],
         .obj [("carrier", .str "FedEx"), ("service", .str "anything")],
         .obj [("carrier", .str "Japan Post"), ("service", .str "japanpost_ems")],
         .obj [("carrier", .str "JapanPost"),
           ("service", .str "japanpost_epacket_light")],
         .obj [("carrier", .str "Japan Post"),
           ("service", .str "japanpost_surface")],
         .obj [("carrier", .str "UPS"), ("service", .str "ups_ground")]]).Perm
      [.obj [("carrier", .str "DHL Express"), ("service", .str "whatever")],
       .obj [("carrier", .str "FedEx"), ("service", .str "anything")],
       .obj [("carrier", .str "Japan Post"), ("service", .str "japanpost_ems")],
       .obj [("carrier", .str "JapanPost"),
         ("service", .str "japanpost_epacket_light")]] :=
  ⟨rfl, rfl, rfl, rfl,
    allowlist_filter_exact
      [.obj [("carrier", .str "DHL Express"), ("service", .str "whatever")],
       .obj [("carrier", .str "FedEx"), ("service", .str "anything")],
       .obj [("carrier", .str "Japan Post"), ("service", .str "japanpost_ems")],
       .obj [("carrier", .str "JapanPost"),
         ("service", .str "japanpost_epacket_light")],
       .obj [("carrier", .str "Japan Post"),
         ("service", .str "japanpost_surface")],
       .obj [("carrier", .str "UPS"), ("service", .str "ups_ground")]]
      (.obj [("carrier", .str "DHL Express"), ("service", .str "whatever")])
      (.obj [("carrier", .str "FedEx"), ("service", .str "anything")])
      (.obj [("carrier", .str "Japan Post"), ("service", .str "japanpost_ems")])
      (.obj [("carrier", .str "JapanPost"),
        ("service", .str "japanpost_epacket_light")])
      (.obj [("carrier", .str "Japan Post"),
        ("service", .str "japanpost_surface")])
      (.obj [("carrier", .str "UPS"), ("service", .str "ups_ground")])
      rfl rfl rfl rfl rfl rfl rfl rfl rfl rfl rfl rfl rfl (List.Perm.refl _)⟩

/-- Occurrences of one gap-fill message in the gap-fill list built from any
kept-services predicate: exactly one per required code the predicate drops,
none otherwise (the three labels are pairwise distinct). -/
theorem gapFillMsg_count (P : String → Bool) (s : String)
    (hs : s ∈ JAPAN_POST_SERVICES) :
    ((JAPAN_POST_SERVICES.filter P).map gapFillMsg).count (gapFillMsg s)
      = if P s then 1 else 0 := by
  have hmem : s = "japanpost_ems" ∨ s = "japanpost_epacket_light"
      ∨ s = "japanpost_smallpacket_air" := by
    simpa [JAPAN_POST_SERVICES] using hs
  rcases hmem with h | h | h <;> subst h <;>
    rcases hPe : P "japanpost_ems" <;>
    rcases hPl : P "japanpost_epacket_light" <;>
    rcases hPa : P "japanpost_smallpacket_air" <;>
    simp [JAPAN_POST_SERVICES, List.filter_cons, hPe, hPl, hPa,
      List.count_cons, gapFillMsg, jpLabel]

/-- Counterexample to C7 as stated: a raw quote accepted through the DHL
rule that carries the Japan Post EMS code still triggers the synthesized
EMS gap-fill message, because the gap-fill check only inspects accepted
quotes whose carrier contains "japan". -/
theorem gapFill_dhl_carrier_counterexample :
    ((processSuccess (.arr [.obj [("carrier", .str "DHL"),
        ("service", .str "japanpost_ems")]])).rates.map
          (fun r => r.service))
      = ["japanpost_ems"] ∧
    gapFillMsg "japanpost_ems"
      ∈ (processSuccess (.arr [.obj [("carrier", .str "DHL"),
          ("service", .str "japanpost_ems")]])).errors := by
  constructor
  · rfl
  · show gapFillMsg "japanpost_ems" ∈
      ["EMS：非対応/取得失敗", "eパケットライト：非対応/取得失敗",
        "小型包装物（航空）：非対応/取得失敗"]
    exact List.mem_cons_self _ _

/-- C7 amended: the error list is the API-reported messages (in encounter
order) followed by the gap-fill messages; for each required Japan Post
service code, the gap-fill segment contains exactly one synthesized message
when no accepted quote whose carrier (lowercased) contains "japan" carries
that code, and no such message when one does. -/
theorem gapFill_per_service :
    ∀ (data : JsVal) (s : String),
      s ∈ JAPAN_POST_SERVICES →
      (processSuccess data).errors
        = apiErrors (extractRaw data)
          ++ gapFill (((extractRaw data).filter allowQuote).map normalizeRate) ∧
      ((japanPostServicesOf
          (((extractRaw data).filter allowQuote).map normalizeRate)).contains s
            = true →
        gapFillMsg s
          ∉ gapFill (((extractRaw data).filter allowQuote).map normalizeRate)) ∧
      ((japanPostServicesOf
          (((extractRaw data).filter allowQuote).map normalizeRate)).contains s
            = false →
        (gapFill (((extractRaw data).filter allowQuote).map
            normalizeRate)).count (gapFillMsg s) = 1) := by
  intro data s hs
  refine ⟨rfl, ?_, ?_⟩
  · intro hc
    have h := gapFillMsg_count
      (fun t => !(japanPostServicesOf
        (((extractRaw data).filter allowQuote).map normalizeRate)).contains t)
      s hs
    simp only [hc, Bool.not_true, Bool.false_eq_true, if_false, ite_false] at h
    rw [gapFill]
    exact List.count_eq_zero.mp h
  · intro hc
    have h := gapFillMsg_count
      (fun t => !(japanPostServicesOf
        (((extractRaw data).filter allowQuote).map normalizeRate)).contains t)
      s hs
    simp only [hc, Bool.not_false, if_true, ite_true] at h
    rw [gapFill]
    exact h

/-- Witness for the amended C7: with one accepted Japan Post quote carrying
the light-packet code, the light-packet message is absent and the EMS
message appears exactly once in the gap-fill segment. -/
theorem gapFill_per_service_witness :
    ("japanpost_epacket_light" ∈ JAPAN_POST_SERVICES ∧
      "japanpost_ems" ∈ JAPAN_POST_SERVICES) ∧
    ((processSuccess (.arr [.obj [("carrier", .str "Japan Post"),
        ("service", .str "japanpost_epacket_light")]])).errors
      = apiErrors (extractRaw (.arr [.obj [("carrier", .str "Japan Post"),
          ("service", .str "japanpost_epacket_light")]]))
        ++ gapFill (((extractRaw (.arr [.obj [("carrier", .str "Japan Post"),
            ("service", .str "japanpost_epacket_light")]])).filter
              allowQuote).map normalizeRate) ∧
    ((japanPostServicesOf
        (((extractRaw (.arr [.obj [("carrier", .str "Japan Post"),
          ("service", .str "japanpost_epacket_light")]])).filter
            allowQuote).map normalizeRate)).contains
          "japanpost_epacket_light" = true →
      gapFillMsg "japanpost_epacket_light"
        ∉ gapFill (((extractRaw (.arr [.obj [("carrier", .str "Japan Post"),
            ("service", .str "japanpost_epacket_light")]])).filter
              allowQuote).map normalizeRate)) ∧
    ((japanPostServicesOf
        (((extractRaw (.arr [.obj [("carrier", .str "Japan Post"),
          ("service", .str "japanpost_epacket_light")]])).filter
            allowQuote).map normalizeRate)).contains
          "japanpost_epacket_light" = false →
      (gapFill (((extractRaw (.arr [.obj [("carrier", .str "Japan Post"),
          ("service", .str "japanpost_epacket_light")]])).filter
            allowQuote).map normalizeRate)).count
          (gapFillMsg "japanpost_epacket_light") = 1)) ∧
    ((japanPostServicesOf
        (((extractRaw (.arr [.obj [("carrier", .str "Japan Post"),
          ("service", .str "japanpost_epacket_light")]])).filter
            allowQuote).map normalizeRate)).contains "japanpost_ems" = false →
      (gapFill (((extractRaw (.arr [.obj [("carrier", .str "Japan Post"),
          ("service", .str "japanpost_epacket_light")]])).filter
            allowQuote).map normalizeRate)).count
          (gapFillMsg "japanpost_ems") = 1) :=
  ⟨⟨by decide, by decide⟩,
    gapFill_per_service (.arr [.obj [("carrier", .str "Japan Post"),
      ("service", .str "japanpost_epacket_light")]])
      "japanpost_epacket_light" (by decide),
    (gapFill_per_service (.arr [.obj [("carrier", .str "Japan Post"),
      ("service", .str "japanpost_epacket_light")]])
      "japanpost_ems" (by decide)).2.2⟩

/-- C8: for costPrice 1000, shippingFee 3000, feePercent 21,
targetProfitRate 30, the required sell price in JPY is
`(1000+3000)/(1-0.21-0.30) = 400000/49 ≈ 8163.27`; and whenever
`feePercent + targetProfitRate ≥ 100` the computation reports the
rates-exceed-100% error with every derived price `none`. -/
theorem computePrice_formula :
    (∀ er dr : ℚ, (computePrice 1000 3000 21 30 er dr).sellPriceJPY
      = some ((1000 + 3000) / (1 - 21 / 100 - 30 / 100))) ∧
    ((1000 + 3000 : ℚ) / (1 - 21 / 100 - 30 / 100) = 400000 / 49) ∧
    (|(400000 / 49 : ℚ) - 8163.27| < 1 / 100) ∧
    (∀ cp sf f p er dr : ℚ, 100 ≤ f + p →
      computePrice cp sf f p er dr
        = PriceOutcome.mk none none none none
            (some "利益率と手数料率の合計が100%を超えています。")) := by
  refine ⟨?_, by norm_num, ?_, ?_⟩
  · intro er dr
    norm_num [computePrice]
  · rw [abs_sub_lt_iff]
    constructor <;> norm_num
  · intro cp sf f p er dr h
    have hdiv : (1 : ℚ) - f / 100 - p / 100 ≤ 0 := by linarith
    simp only [computePrice]
    rw [if_pos hdiv]

/-- Witness for C8: fee 60% and profit 40% sum to 100% and yield the error
outcome with no prices. -/
theorem computePrice_formula_witness :
    (100 : ℚ) ≤ 60 + 40 ∧
    (computePrice 1000 3000 21 30 150 22).sellPriceJPY
      = some ((1000 + 3000) / (1 - 21 / 100 - 30 / 100)) ∧
    computePrice 1000 3000 60 40 145 22
      = PriceOutcome.mk none none none none
          (some "利益率と手数料率の合計が100%を超えています。") :=
  ⟨by norm_num, computePrice_formula.1 150 22,
    computePrice_formula.2.2.2 1000 3000 60 40 145 22 (by norm_num)⟩

/-- C9: `fetchExchangeRate` returns the fixed fallback 145 on a thrown
network/parse failure and on a response missing (or null at) the JPY rate;
otherwise it returns the numeric coercion of the fetched JPY value. -/
theorem fetchExchangeRate_fallback :
    (fetchExchangeRate .throwing = .fin 145) ∧
    (∀ data : JsVal, (jsGet (jsGet data "rates") "JPY").nullish = true →
      fetchExchangeRate (.resolve data) = .fin 145) ∧
    (∀ (data v : JsVal), jsGet (jsGet data "rates") "JPY" = v →
      v.nullish = false →
      fetchExchangeRate (.resolve data) = jsToNumber v) := by
  refine ⟨rfl, ?_, ?_⟩
  · intro data h
    simp [fetchExchangeRate, jsCoalesce, h, jsToNumber]
  · intro data v hv h
    simp [fetchExchangeRate, jsCoalesce, hv, h]

/-- Witness for C9: a response with `rates.JPY = 150` yields 150, and one
with no `rates` field yields the 145 fallback. -/
theorem fetchExchangeRate_fallback_witness :
    ((jsGet (jsGet (JsVal.obj []) "rates") "JPY").nullish = true ∧
      fetchExchangeRate (.resolve (.obj [])) = .fin 145) ∧
    (jsGet (jsGet (JsVal.obj [("rates",
        .obj [("JPY", .num (.fin 150))])]) "rates") "JPY"
      = .num (.fin 150) ∧
    (JsVal.num (.fin 150)).nullish = false ∧
    fetchExchangeRate (.resolve (.obj [("rates",
        .obj [("JPY", .num (.fin 150))])]))
      = jsToNumber (.num (.fin 150))) :=
  ⟨⟨rfl, fetchExchangeRate_fallback.2.1 (.obj []) rfl⟩,
    ⟨rfl, rfl, fetchExchangeRate_fallback.2.2
      (.obj [("rates", .obj [("JPY", .num (.fin 150))])])
      (.num (.fin 150)) rfl rfl⟩⟩

/-- C10: normalization of an accepted raw quote is total over arbitrary
JSON shapes: carrier, service, and currency coerce to strings (empty when
the field is missing or null), the optional fields default to `null`, and
the price is numerically coerced with default 0 when the field is missing
or null — while a non-numeric price value (an object, or a non-numeric
string) coerces to NaN rather than to the 0 default. -/
theorem normalizeRate_total_coercions :
    ∀ q : JsVal,
      ((jsGet q "carrier").nullish = true → (normalizeRate q).carrier = "") ∧
      (∀ v, jsGet q "carrier" = v → v.nullish = false →
        (normalizeRate q).carrier = jsToStr v) ∧
      ((jsGet q "service").nullish = true → (normalizeRate q).service = "") ∧
      ((jsGet q "currency").nullish = true → (normalizeRate q).currency = "") ∧
      ((jsGet q "estimated_delivery_dates").nullish = true →
        (normalizeRate q).estimated_delivery_dates = .null) ∧
      ((jsGet q "carrier_id").nullish = true →
        (normalizeRate q).carrier_id = .null) ∧
      ((jsGet q "price").nullish = true → (normalizeRate q).price = .fin 0) ∧
      (∀ n, jsGet q "price" = .num n → (normalizeRate q).price = n) ∧
      (∀ fs, jsGet q "price" = .obj fs → (normalizeRate q).price = .nan) ∧
      (∀ s, jsGet q "price" = .str s →
        (normalizeRate q).price = strToNum s) := by
  intro q
  refine ⟨?_, ?_, ?_, ?_, ?_, ?_, ?_, ?_, ?_, ?_⟩
  · intro h
    simp [normalizeRate, jsCoalesce, h, jsToStr]
  · intro v hv h
    simp [normalizeRate, jsCoalesce, hv, h]
  · intro h
    simp [normalizeRate, jsCoalesce, h, jsToStr]
  · intro h
    simp [normalizeRate, jsCoalesce, h, jsToStr]
  · intro h
    simp [normalizeRate, jsCoalesce, h]
  · intro h
    simp [normalizeRate, jsCoalesce, h]
  · intro h
    simp [normalizeRate, jsCoalesce, h, jsToNumber]
  · intro n hn
    simp [normalizeRate, jsCoalesce, hn, jsToNumber, JsVal.nullish]
  · intro fs hfs
    simp [normalizeRate, jsCoalesce, hfs, jsToNumber, JsVal.nullish]
  · intro s hs
    simp [normalizeRate, jsCoalesce, hs, jsToNumber, JsVal.nullish]

/-- Witness for C10 at a quote with a missing carrier, an object-valued
price (which coerces to NaN, not 0), and at a quote with a non-numeric
string price. -/
theorem normalizeRate_total_coercions_witness :
    ((jsGet (JsVal.obj [("price", .obj [])]) "carrier").nullish = true ∧
      (normalizeRate (.obj [("price", .obj [])])).carrier = "") ∧
    (jsGet (JsVal.obj [("price", .obj [])]) "price" = .obj [] ∧
      (normalizeRate (.obj [("price", .obj [])])).price = .nan) ∧
    (jsGet (JsVal.obj [("price", .str "free")]) "price" = .str "free" ∧
      (normalizeRate (.obj [("price", .str "free")])).price
        = strToNum "free" ∧
      strToNum "free" = .nan) :=
  ⟨⟨rfl, (normalizeRate_total_coercions (.obj [("price", .obj [])])).1 rfl⟩,
    ⟨rfl, (normalizeRate_total_coercions
      (.obj [("price", .obj [])])).2.2.2.2.2.2.2.2.1 [] rfl⟩,
    ⟨rfl, (normalizeRate_total_coercions
      (.obj [("price", .str "free")])).2.2.2.2.2.2.2.2.2 "free" rfl,
      by decide⟩⟩
